import Mathlib

/-!
Shallow embedding of the VillageSimulation backend core
(`village_actions.py`, `village_state.py`, `grid_manager.py`,
`oracle_agent.py` fallback logic, `builder_agent.py` build action),
together with theorems settling the specification claims.

Python floats are modelled as rationals (ℚ), Python ints as ℤ/ℕ, and
the global `random` source as an explicitly threaded list of draws
(one list element per `random.uniform` / `random.randint` call).
Python dict-based records become Lean structures; dict messages become an
inductive `Msg` carrying the same data the formatted strings carry.
-/

namespace VillageSim

/-- The three resource pools `{wood, food, stone}` of the backend. -/
inductive ResKind where
  | wood
  | food
  | stone
deriving Repr, DecidableEq

/-- Resource pool record, mirroring the `resources` dict. -/
structure Res where
  wood : ℤ
  food : ℤ
  stone : ℤ
deriving Repr, DecidableEq

/-- `resources[k]` (all three keys are always present in the village dicts). -/
def getRes (r : Res) : ResKind → ℤ
  | .wood => r.wood
  | .food => r.food
  | .stone => r.stone

/-- `resources[k] += n` (with `n` possibly negative for a deduction). -/
def addRes (r : Res) (k : ResKind) (n : ℤ) : Res :=
  match k with
  | .wood => { r with wood := r.wood + n }
  | .food => { r with food := r.food + n }
  | .stone => { r with stone := r.stone + n }

/-- Building kinds of the village `buildings` dict. -/
inductive BKind where
  | houses
  | workshops
  | farms
deriving Repr, DecidableEq

/-- Building counter record, mirroring the `buildings` dict. -/
structure Buildings where
  houses : ℤ
  workshops : ℤ
  farms : ℤ
deriving Repr, DecidableEq

/-- `buildings.get(b, 0)`. -/
def getB (b : Buildings) : BKind → ℤ
  | .houses => b.houses
  | .workshops => b.workshops
  | .farms => b.farms

/-- `buildings[b] = buildings.get(b, 0) + 1`. -/
def addB (b : Buildings) (k : BKind) (n : ℤ) : Buildings :=
  match k with
  | .houses => { b with houses := b.houses + n }
  | .workshops => { b with workshops := b.workshops + n }
  | .farms => { b with farms := b.farms + n }

/-- A villager dict: `{name, job, job_tier, stamina, experience, assigned_task}`. -/
structure Villager where
  name : String
  job : String
  job_tier : ℕ
  stamina : ℚ
  experience : ℕ
  assigned_task : Option String
deriving Repr, DecidableEq

/-- Python `int(q)` on a rational: truncation toward zero. -/
def pyTrunc (q : ℚ) : ℤ :=
  if q < 0 then -⌊-q⌋ else ⌊q⌋

/-- Embedding of `str.startswith`: Boolean character-list prefix test. -/
def listPre : List Char → List Char → Bool
  | [], _ => true
  | _ :: _, [] => false
  | a :: as, b :: bs => if a = b then listPre as bs else false

/-- `s.startswith(p)`. -/
def strStarts (s p : String) : Bool := listPre p.data s.data

/-- Embedding of `str.replace` for a non-empty pattern: replace every
left-to-right non-overlapping occurrence of `pat` by `rep`. -/
def repAux (pat rep : List Char) : List Char → List Char
  | [] => []
  | c :: cs =>
    if listPre pat (c :: cs) ∧ pat ≠ [] then rep ++ repAux pat rep (cs.drop (pat.length - 1))
    else c :: repAux pat rep cs
termination_by l => l.length
decreasing_by
  · simp [List.length_drop]
    omega
  · simp

/-- `s.replace(pat, rep)` (the source only calls it with the pattern `"build_"`). -/
def strReplace (s pat rep : String) : String := ⟨repAux pat.data rep.data s.data⟩

/-! ### `village_actions.py` — class `VillageActions` -/

/-- One entry of the `VillageActions.ACTIONS` table. -/
structure ActionDef where
  resource : Option ResKind := none
  base_yield : ℕ := 0
  stamina_cost : ℚ := 0
  stamina_gain : ℚ := 0
  experience_gain : ℕ := 0
  job_requirements : List String := []
  requires_resources : List (ResKind × ℤ) := []
  building : Option BKind := none
  resource_cost : List (ResKind × ℤ) := []
  duration : ℕ := 0
deriving Repr, DecidableEq

/-- The `ACTIONS` table of `VillageActions`. -/
def ACTIONS : String → Option ActionDef
  | "chop_wood" =>
    some { resource := some .wood, base_yield := 10, stamina_cost := 0.15,
           experience_gain := 5, job_requirements := ["woodcutter", "lumberjack", "builder"] }
  | "gather_food" =>
    some { resource := some .food, base_yield := 8, stamina_cost := 0.12,
           experience_gain := 5, job_requirements := ["forager", "farmer", "chef"] }
  | "farm_crops" =>
    some { resource := some .food, base_yield := 15, stamina_cost := 0.18,
           experience_gain := 8, job_requirements := ["farmer", "chef"] }
  | "cook_food" =>
    some { resource := some .food, base_yield := 20, stamina_cost := 0.10,
           experience_gain := 10, job_requirements := ["chef"],
           requires_resources := [(.food, 10)] }
  | "mine_stone" =>
    some { resource := some .stone, base_yield := 12, stamina_cost := 0.20,
           experience_gain := 6, job_requirements := ["miner", "excavator", "engineer"] }
  | "build_house" =>
    some { building := some .houses, resource_cost := [(.wood, 50), (.stone, 30)],
           stamina_cost := 0.25, experience_gain := 15,
           job_requirements := ["builder", "engineer"], duration := 1 }
  | "build_workshop" =>
    some { building := some .workshops, resource_cost := [(.wood, 80), (.stone, 60)],
           stamina_cost := 0.30, experience_gain := 20,
           job_requirements := ["builder", "engineer"], duration := 2 }
  | "build_farm" =>
    some { building := some .farms, resource_cost := [(.wood, 40), (.food, 20)],
           stamina_cost := 0.20, experience_gain := 15,
           job_requirements := ["farmer", "chef", "builder"], duration := 1 }
  | "rest" =>
    some { stamina_gain := 0.40, experience_gain := 0, job_requirements := [] }
  | _ => none

/-- `TIER_MULTIPLIERS.get(job_tier, 1.0)`. -/
def TIER_MULTIPLIERS : ℕ → ℚ
  | 1 => 1
  | 2 => 1.5
  | 3 => 2
  | _ => 1

/-- Action result messages; each constructor carries the data the source
interpolates into the corresponding formatted string. -/
inductive Msg where
  | unknownAction (action : String)
  | wrongJob (name action : String)
  | tooTired (name action : String)
  | notEnoughResource (res : ResKind) (action : String)
  | rested (name : String) (stamina : ℚ)
  | gathered (name : String) (amount : ℤ) (res : ResKind) (stamina : ℚ) (exp : ℕ)
  | built (name : String) (b : BKind) (stamina : ℚ) (exp : ℕ)
  | notImplemented (action : String)
  | idle (name : String)
deriving Repr, DecidableEq

/-- The first insufficient entry of a requirement dict:
`for res, amount in reqs.items(): if resources.get(res, 0) < amount: ...`. -/
def firstInsufficient : List (ResKind × ℤ) → Res → Option ResKind
  | [], _ => none
  | (k, amt) :: rest, r => if getRes r k < amt then some k else firstInsufficient rest r

/-- `for res, amount in reqs.items(): resources[res] -= amount`. -/
def consumeAll (reqs : List (ResKind × ℤ)) (r : Res) : Res :=
  reqs.foldl (fun acc p => addRes acc p.1 (-p.2)) r

/-- `VillageActions._execute_rest`. -/
def execRest (w : Villager) (resources : Res) (buildings : Buildings) (ad : ActionDef)
    (rng : List ℚ) : Villager × Res × Buildings × Msg × List ℚ :=
  let w1 := { w with stamina := min 1 (w.stamina + ad.stamina_gain) }
  (w1, resources, buildings, .rested w.name w1.stamina, rng)

/-- `VillageActions._execute_resource_gathering`; `rng.headD 1` is the
`random.uniform(0.8, 1.2)` draw, consumed from the stream. -/
def execGather (action : String) (w : Villager) (resources : Res) (buildings : Buildings)
    (ad : ActionDef) (rt : ResKind) (rng : List ℚ) : Villager × Res × Buildings × Msg × List ℚ :=
  match firstInsufficient ad.requires_resources resources with
  | some r => (w, resources, buildings, .notEnoughResource r action, rng)
  | none =>
    let resources1 := consumeAll ad.requires_resources resources
    let mult := TIER_MULTIPLIERS w.job_tier
    let v := rng.headD 1
    let actualYield := pyTrunc ((ad.base_yield : ℚ) * mult * v)
    let resources2 := addRes resources1 rt actualYield
    let w1 := { w with stamina := max 0 (w.stamina - ad.stamina_cost),
                       experience := min 100 (w.experience + ad.experience_gain) }
    (w1, resources2, buildings, .gathered w.name actualYield rt w1.stamina w1.experience, rng.drop 1)

/-- `VillageActions._execute_building`. -/
def execBuilding (action : String) (w : Villager) (resources : Res) (buildings : Buildings)
    (ad : ActionDef) (b : BKind) (rng : List ℚ) : Villager × Res × Buildings × Msg × List ℚ :=
  match firstInsufficient ad.resource_cost resources with
  | some r => (w, resources, buildings, .notEnoughResource r action, rng)
  | none =>
    let resources1 := consumeAll ad.resource_cost resources
    let buildings1 := addB buildings b 1
    let w1 := { w with stamina := max 0 (w.stamina - ad.stamina_cost),
                       experience := min 100 (w.experience + ad.experience_gain) }
    (w1, resources1, buildings1, .built w.name b w1.stamina w1.experience, rng)

/-- `VillageActions.execute_action`. -/
def executeAction (action : String) (w : Villager) (resources : Res) (buildings : Buildings)
    (rng : List ℚ) : Villager × Res × Buildings × Msg × List ℚ :=
  match ACTIONS action with
  | none => (w, resources, buildings, .unknownAction action, rng)
  | some ad =>
    if ad.job_requirements ≠ [] ∧ w.job ∉ ad.job_requirements then
      (w, resources, buildings, .wrongJob w.name action, rng)
    else if w.stamina < ad.stamina_cost then
      (w, resources, buildings, .tooTired w.name action, rng)
    else if action = "rest" then
      execRest w resources buildings ad rng
    else
      match ad.resource with
      | some rt => execGather action w resources buildings ad rt rng
      | none =>
        match ad.building with
        | some b => execBuilding action w resources buildings ad b rng
        | none => (w, resources, buildings, .notImplemented action, rng)

/-! ### `village_state.py` — class `VillageState` -/

/-- Whole-village state: `resources`, `villagers`, `buildings`, `day`
(the `action_log` and the stateless `actions_handler` are omitted). -/
structure VillageState where
  resources : Res
  villagers : List Villager
  buildings : Buildings
  day : ℕ
deriving Repr, DecidableEq

/-- One entry of the Oracle decision payload `assignments` list.
Python's `assignment.get(...)` yields `None` for a missing key; both `None`
and the empty string are falsy in the `if new_job`/`if task` guards, so the
falsy case is represented by `""`. -/
structure Assignment where
  name : String
  new_job : String
  job_tier : ℕ
  task : String
deriving Repr, DecidableEq

/-- One entry of the decision payload `build_actions` list. -/
structure BuildAction where
  building : String
  assigned_to : String
deriving Repr, DecidableEq

/-- The Oracle decision payload `{assignments, build_actions}`. -/
structure Decision where
  assignments : List Assignment
  build_actions : List BuildAction
deriving Repr, DecidableEq

/-- Update the first list element satisfying `p` (Python mutates the dict
returned by `_find_villager`, i.e. the first villager with that name). -/
def updateFirst (p : Villager → Bool) (f : Villager → Villager) : List Villager → List Villager
  | [] => []
  | w :: ws => if p w then f w :: ws else w :: updateFirst p f ws

/-- The body of the assignment loop of `apply_oracle_decisions`, applied to
the villager found by name: job change only when `new_job` is truthy and
differs from the current job; task overwritten when truthy. -/
def applyAssignmentToVillager (a : Assignment) (w : Villager) : Villager :=
  let w1 := if a.new_job ≠ "" ∧ a.new_job ≠ w.job then
              { w with job := a.new_job, job_tier := a.job_tier }
            else w
  if a.task ≠ "" then { w1 with assigned_task := some a.task } else w1

/-- One iteration of the `assignments` loop (villager not found → skipped). -/
def applyAssignment (vs : List Villager) (a : Assignment) : List Villager :=
  updateFirst (fun w => w.name = a.name) (applyAssignmentToVillager a) vs

/-- One iteration of the `build_actions` loop:
`villager['assigned_task'] = f"build_{building}"`. -/
def applyBuildAction (vs : List Villager) (b : BuildAction) : List Villager :=
  updateFirst (fun w => w.name = b.assigned_to)
    (fun w => { w with assigned_task := some ("build_" ++ b.building) }) vs

/-- `VillageState.apply_oracle_decisions` (messages omitted): the
`assignments` loop runs first, then the `build_actions` loop. -/
def applyOracleDecisions (s : VillageState) (d : Decision) : VillageState :=
  { s with villagers :=
      d.build_actions.foldl applyBuildAction (d.assignments.foldl applyAssignment s.villagers) }

/-- The villager loop of `VillageState.execute_day`: each villager is run
against the live shared `resources`/`buildings`, in roster order; a falsy
`assigned_task` (absent or empty) is an idle day for that villager. -/
def execVillagers : List Villager → Res → Buildings → List ℚ →
    List Villager × Res × Buildings × List Msg × List ℚ
  | [], res, bld, rng => ([], res, bld, [], rng)
  | w :: ws, res, bld, rng =>
    if w.assigned_task = none ∨ w.assigned_task = some "" then
      match execVillagers ws res bld rng with
      | (ws1, res1, bld1, ms, rng1) => (w :: ws1, res1, bld1, .idle w.name :: ms, rng1)
    else
      match executeAction (w.assigned_task.getD "") w res bld rng with
      | (w1, res2, bld2, m, rng2) =>
        match execVillagers ws res2 bld2 rng2 with
        | (ws1, res1, bld1, ms, rng1) => (w1 :: ws1, res1, bld1, m :: ms, rng1)

/-- `VillageState.execute_day`: run every villager's task, then `day += 1`. -/
def executeDay (s : VillageState) (rng : List ℚ) : VillageState × List Msg × List ℚ :=
  match execVillagers s.villagers s.resources s.buildings rng with
  | (ws1, res1, bld1, ms, rng1) =>
    ({ resources := res1, villagers := ws1, buildings := bld1, day := s.day + 1 }, ms, rng1)

/-! ### `grid_manager.py` — class `GridManager` -/

/-- Tile types produced by `_random_tile_type`. -/
inductive TileType where
  | grass
  | dirt
  | water
deriving Repr, DecidableEq

/-- A tree record: `{id, position: {offset_x, offset_y}, cut, type}`. -/
structure Tree where
  id : ℕ
  offset_x : ℚ
  offset_y : ℚ
  cut : Bool
  species : String
deriving Repr, DecidableEq

/-- A tile record: `{x, y, tile_type, trees}` (`tile_image_url` omitted). -/
structure Tile where
  x : ℕ
  y : ℕ
  tile_type : TileType
  trees : List Tree
deriving Repr, DecidableEq

/-- Grid manager state: the tile dict (keyed by the injective `"x,y"` string,
modelled as a list in insertion order), the resource pool and the
strictly-increasing tree-id counter (`oracle_position` and the external
environment-analysis hook are out of the modelled core). -/
structure GridState where
  grid_size : ℕ
  grid : List Tile
  resources : Res
  tree_id_counter : ℕ
deriving Repr, DecidableEq

/-- The random draws consumed by `initialize_grid`, one component per call
site of the `random` module: the weighted tile-type draw, the 70%-coin
`random.random()`, the `random.randint(1, 2)` tree count, and the per-tree
offset/species draws (indexed by the tree id being generated). -/
structure GenChoices where
  tileType : ℕ → ℕ → TileType
  coin : ℕ → ℕ → ℚ
  pick12 : ℕ → ℕ → ℕ
  offx : ℕ → ℚ
  offy : ℕ → ℚ
  species : ℕ → String

/-- The tree-generation loop body: `n` trees, each taking the next id from
the counter (`_get_next_tree_id` returns the counter, then increments it). -/
def mkTrees (c : GenChoices) : ℕ → ℕ → List Tree × ℕ
  | 0, counter => ([], counter)
  | n + 1, counter =>
    match mkTrees c n (counter + 1) with
    | (ts, counter1) =>
      ({ id := counter, offset_x := c.offx counter, offset_y := c.offy counter,
         cut := false, species := c.species counter } :: ts, counter1)

/-- `GridManager._generate_trees_for_tile`: water tiles get no trees; else a
70% coin decides between `randint(1, 2)` trees and none. -/
def generateTreesForTile (c : GenChoices) (x y : ℕ) (tt : TileType) (counter : ℕ) :
    List Tree × ℕ :=
  if tt = .water then ([], counter)
  else
    let numTrees := if c.coin x y < 0.7 then c.pick12 x y else 0
    mkTrees c numTrees counter

/-- The `initialize_grid` double loop over `range(grid_size) × range(grid_size)`. -/
def initAux (c : GenChoices) : List (ℕ × ℕ) → ℕ → List Tile × ℕ
  | [], counter => ([], counter)
  | (x, y) :: rest, counter =>
    match generateTreesForTile c x y (c.tileType x y) counter with
    | (ts, counter1) =>
      match initAux c rest counter1 with
      | (tiles, counter2) =>
        ({ x := x, y := y, tile_type := c.tileType x y, trees := ts } :: tiles, counter2)

/-- The coordinates `(x, y)` in loop order: `x` outer, `y` inner. -/
def coordList (size : ℕ) : List (ℕ × ℕ) :=
  (List.range size).flatMap fun x => (List.range size).map fun y => (x, y)

/-- `GridManager.initialize_grid` on a fresh manager (`__init__`/`reset_grid`
state: empty grid, zero resources, counter 0). -/
def initializeGrid (c : GenChoices) (size : ℕ) : GridState :=
  match initAux c (coordList size) 0 with
  | (tiles, counter) =>
    { grid_size := size, grid := tiles,
      resources := { wood := 0, food := 0, stone := 0 }, tree_id_counter := counter }

/-- `GridManager._count_total_trees`: uncut trees across all tiles. -/
def countTotalTrees (g : GridState) : ℕ :=
  (g.grid.map fun tile => (tile.trees.filter fun t => !t.cut).length).sum

/-- The `stats` entry of `get_grid_state`:
`{total_trees, trees_cut := counter - total_trees}`. -/
def gridStats (g : GridState) : ℤ × ℤ :=
  ((countTotalTrees g : ℤ), (g.tree_id_counter : ℤ) - (countTotalTrees g : ℤ))

/-- The tree loop of `cut_tree`: flip `cut` on the first tree with the given
id that is not already cut; `none` when no such tree exists. -/
def cutTreeInList : List Tree → ℕ → Option (List Tree)
  | [], _ => none
  | t :: ts, tid =>
    if t.id = tid ∧ t.cut = false then some ({ t with cut := true } :: ts)
    else (cutTreeInList ts tid).map (t :: ·)

/-- Replace the trees of the (unique) tile at `(x, y)`. -/
def updTile (x y : ℕ) (trees : List Tree) : List Tile → List Tile
  | [] => []
  | t :: ts =>
    if t.x == x && t.y == y then { t with trees := trees } :: ts
    else t :: updTile x y trees ts

/-- `GridManager.cut_tree`; `w` is the `random.randint(5, 15)` wood draw.
Failure (`(false, 0)`) leaves the state untouched. -/
def cutTree (g : GridState) (x y tid : ℕ) (w : ℤ) : GridState × Bool × ℤ :=
  match g.grid.find? (fun t => t.x == x && t.y == y) with
  | none => (g, false, 0)
  | some tile =>
    match cutTreeInList tile.trees tid with
    | none => (g, false, 0)
    | some trees1 =>
      ({ g with grid := updTile x y trees1 g.grid,
                resources := { g.resources with wood := g.resources.wood + w } },
       true, w)

/-- States reachable from `initialize_grid` by `cut_tree` calls. -/
inductive GridReachable : GridState → Prop where
  | init (c : GenChoices) (size : ℕ) : GridReachable (initializeGrid c size)
  | cut (g : GridState) (x y tid : ℕ) (w : ℤ) :
      GridReachable g → GridReachable (cutTree g x y tid w).1

/-! ### `oracle_agent.py` — `OracleAgent._fallback_logic` (DirectiveEngine) -/

/-- `OracleAgent._check_promotion`. -/
def checkPromotion (job : String) (tier : ℕ) (exp : ℕ) (r : Res) : String × ℕ :=
  if job = "woodcutter" ∧ tier = 1 ∧ exp > 70 then ("lumberjack", 2)
  else if job = "lumberjack" ∧ tier = 2 ∧ exp > 85 ∧ r.wood > 200 then ("builder", 3)
  else if job = "forager" ∧ tier = 1 ∧ exp > 70 then ("farmer", 2)
  else if job = "farmer" ∧ tier = 2 ∧ exp > 90 ∧ r.food > 200 then ("chef", 3)
  else if job = "miner" ∧ tier = 1 ∧ exp > 70 then ("excavator", 2)
  else if job = "excavator" ∧ tier = 2 ∧ exp > 90 ∧ r.stone > 150 then ("engineer", 3)
  else (job, tier)

/-- The `task_map` default table of `_assign_task`, with default `"rest"`. -/
def taskMap : String → String
  | "woodcutter" => "chop_wood"
  | "lumberjack" => "chop_wood"
  | "builder" => "chop_wood"
  | "forager" => "gather_food"
  | "farmer" => "farm_crops"
  | "chef" => "cook_food"
  | "miner" => "mine_stone"
  | "excavator" => "mine_stone"
  | "engineer" => "mine_stone"
  | _ => "rest"

/-- `OracleAgent._assign_task`. -/
def assignTask (job : String) (tier : ℕ) (r : Res) : String :=
  if tier = 3 ∧ job = "builder" ∧ r.wood ≥ 200 then "build_house"
  else if tier = 3 ∧ job = "engineer" ∧ r.stone ≥ 150 ∧ r.wood ≥ 100 then "build_workshop"
  else if tier = 3 ∧ job = "chef" ∧ r.food ≥ 180 then
    (if r.food > 50 then "cook_food" else "gather_food")
  else if r.wood < 100 ∧ job ∈ ["woodcutter", "lumberjack", "builder"] then "chop_wood"
  else if r.food < 100 ∧ job = "forager" then "gather_food"
  else if r.food < 100 ∧ job ∈ ["farmer", "chef"] then "farm_crops"
  else if r.stone < 80 ∧ job ∈ ["miner", "excavator", "engineer"] then "mine_stone"
  else taskMap job

/-- The single-villager step of the `_fallback_logic` loop: its assignment,
and its optional build action (emitted for tier-3 `build_*` tasks). -/
def fallbackStep (r : Res) (w : Villager) : Assignment × Option BuildAction :=
  if w.stamina < 0.2 then
    ({ name := w.name, new_job := w.job, job_tier := w.job_tier, task := "rest" }, none)
  else
    let p := checkPromotion w.job w.job_tier w.experience r
    let task := assignTask p.1 p.2 r
    let a : Assignment := { name := w.name, new_job := p.1, job_tier := p.2, task := task }
    if p.2 = 3 ∧ strStarts task "build_" then
      (a, some { building := strReplace task "build_" "", assigned_to := w.name })
    else (a, none)

/-- The `_fallback_logic` loop over the villagers. -/
def fallbackAux (r : Res) : List Villager → List Assignment × List BuildAction
  | [] => ([], [])
  | w :: ws =>
    match fallbackStep r w, fallbackAux r ws with
    | (a, some b), (as, bs) => (a :: as, b :: bs)
    | (a, none), (as, bs) => (a :: as, bs)

/-- `OracleAgent._fallback_logic` on the state produced by
`get_state_for_oracle`. -/
def fallbackLogic (s : VillageState) : Decision :=
  match fallbackAux s.resources s.villagers with
  | (as, bs) => { assignments := as, build_actions := bs }

/-- One DirectiveEngine round: decide on the current state, then apply the
decision payload via `apply_oracle_decisions`. -/
def oracleRound (s : VillageState) : VillageState :=
  applyOracleDecisions s (fallbackLogic s)

/-! ### `builder_agent.py` — `BuilderAgent.action_build` -/

/-- The Builder's own state: position and private inventory. -/
structure BuilderState where
  x : ℕ
  y : ℕ
  wood : ℤ
  stone : ℤ
  food : ℤ
deriving Repr, DecidableEq

/-- Result payload of `action_build` (success flag plus the error reason). -/
inductive BuildOutcome where
  | outOfBounds (x y : ℕ)
  | tooFar (x y : ℕ)
  | unknownType (bt : String)
  | insufficient (bt : String)
  | built (bt : String) (x y : ℕ)
deriving Repr, DecidableEq

/-- The `requirements` cost table of `action_build`: `(wood, stone)`. -/
def buildRequirements : String → Option (ℤ × ℤ)
  | "house" => some (50, 20)
  | "workshop" => some (100, 50)
  | "farm" => some (30, 10)
  | _ => none

/-- `abs(x - px) + abs(y - py)` on grid coordinates. -/
def manhattan (x y px py : ℕ) : ℕ :=
  ((x : ℤ) - (px : ℤ)).natAbs + ((y : ℤ) - (py : ℤ)).natAbs

/-- `BuilderAgent.action_build` (the shared grid is untouched by this
method; only the private inventory changes on success). -/
def actionBuild (gridSize : ℕ) (b : BuilderState) (bt : String) (x y : ℕ) :
    BuilderState × BuildOutcome :=
  if ¬(x < gridSize ∧ y < gridSize) then (b, .outOfBounds x y)
  else if manhattan x y b.x b.y > 2 then (b, .tooFar x y)
  else
    match buildRequirements bt with
    | none => (b, .unknownType bt)
    | some req =>
      if b.wood < req.1 ∨ b.stone < req.2 then (b, .insufficient bt)
      else ({ b with wood := b.wood - req.1, stone := b.stone - req.2 }, .built bt x y)

/-- Every pool of the resource record is non-negative. -/
def ResNonneg (r : Res) : Prop := 0 ≤ r.wood ∧ 0 ≤ r.food ∧ 0 ≤ r.stone

/-- A sequence of `execute_action` calls threading the shared resource pool:
each list entry supplies the action name, the acting villager, the building
counters and the random draws for that call. -/
def runActions : Res → List (String × Villager × Buildings × List ℚ) → Res
  | r, [] => r
  | r, c :: rest => runActions (executeAction c.1 c.2.1 r c.2.2.1 c.2.2.2).2.1 rest

/-- All tree records stored across all tiles, in creation order. -/
def allTrees (g : GridState) : List Tree := g.grid.flatMap Tile.trees

/-- The reachability invariant: the stored tree ids are exactly
`0, 1, ..., counter - 1` in creation order, and water tiles are treeless. -/
def GridInv (g : GridState) : Prop :=
  (allTrees g).map Tree.id = List.range g.tree_id_counter ∧
  ∀ tile ∈ g.grid, tile.tile_type = .water → tile.trees = []

/-- The name, job and tier of a villager (everything a build action cannot
touch). -/
def coreOf (w : Villager) : String × String × ℕ := (w.name, w.job, w.job_tier)

/-! ### Path lemmas for `execute_action` -/

theorem executeAction_unknown {action : String} {w : Villager} {res : Res} {bld : Buildings}
    {rng : List ℚ} (h : ACTIONS action = none) :
    executeAction action w res bld rng = (w, res, bld, .unknownAction action, rng) := by
  unfold executeAction
  rw [h]

theorem executeAction_some {action : String} {ad : ActionDef} {w : Villager} {res : Res}
    {bld : Buildings} {rng : List ℚ} (h : ACTIONS action = some ad) :
    executeAction action w res bld rng =
      (if ad.job_requirements ≠ [] ∧ w.job ∉ ad.job_requirements then
        (w, res, bld, .wrongJob w.name action, rng)
      else if w.stamina < ad.stamina_cost then
        (w, res, bld, .tooTired w.name action, rng)
      else if action = "rest" then
        execRest w res bld ad rng
      else
        match ad.resource with
        | some rt => execGather action w res bld ad rt rng
        | none =>
          match ad.building with
          | some b => execBuilding action w res bld ad b rng
          | none => (w, res, bld, .notImplemented action, rng)) := by
  unfold executeAction
  rw [h]

theorem executeAction_wrongJob {action : String} {ad : ActionDef} {w : Villager} {res : Res}
    {bld : Buildings} {rng : List ℚ} (h : ACTIONS action = some ad)
    (hj : ad.job_requirements ≠ [] ∧ w.job ∉ ad.job_requirements) :
    executeAction action w res bld rng = (w, res, bld, .wrongJob w.name action, rng) := by
  rw [executeAction_some h, if_pos hj]

theorem executeAction_tooTired {action : String} {ad : ActionDef} {w : Villager} {res : Res}
    {bld : Buildings} {rng : List ℚ} (h : ACTIONS action = some ad)
    (hj : ¬(ad.job_requirements ≠ [] ∧ w.job ∉ ad.job_requirements))
    (hs : w.stamina < ad.stamina_cost) :
    executeAction action w res bld rng = (w, res, bld, .tooTired w.name action, rng) := by
  rw [executeAction_some h, if_neg hj, if_pos hs]

theorem executeAction_gather {action : String} {ad : ActionDef} {rt : ResKind} {w : Villager}
    {res : Res} {bld : Buildings} {rng : List ℚ} (h : ACTIONS action = some ad)
    (hrt : ad.resource = some rt) (hrest : action ≠ "rest")
    (hj : ¬(ad.job_requirements ≠ [] ∧ w.job ∉ ad.job_requirements))
    (hs : ¬(w.stamina < ad.stamina_cost)) :
    executeAction action w res bld rng = execGather action w res bld ad rt rng := by
  rw [executeAction_some h, if_neg hj, if_neg hs, if_neg hrest, hrt]

theorem executeAction_build {action : String} {ad : ActionDef} {b : BKind} {w : Villager}
    {res : Res} {bld : Buildings} {rng : List ℚ} (h : ACTIONS action = some ad)
    (hr : ad.resource = none) (hb : ad.building = some b) (hrest : action ≠ "rest")
    (hj : ¬(ad.job_requirements ≠ [] ∧ w.job ∉ ad.job_requirements))
    (hs : ¬(w.stamina < ad.stamina_cost)) :
    executeAction action w res bld rng = execBuilding action w res bld ad b rng := by
  rw [executeAction_some h, if_neg hj, if_neg hs, if_neg hrest, hr, hb]

theorem execGather_insufficient {action : String} {ad : ActionDef} {rt k : ResKind}
    {w : Villager} {res : Res} {bld : Buildings} {rng : List ℚ}
    (hreq : firstInsufficient ad.requires_resources res = some k) :
    execGather action w res bld ad rt rng = (w, res, bld, .notEnoughResource k action, rng) := by
  unfold execGather
  rw [hreq]

theorem execGather_ok {action : String} {ad : ActionDef} {rt : ResKind} {w : Villager}
    {res : Res} {bld : Buildings} {rng : List ℚ}
    (hreq : firstInsufficient ad.requires_resources res = none) :
    execGather action w res bld ad rt rng =
      ({ w with stamina := max 0 (w.stamina - ad.stamina_cost),
                experience := min 100 (w.experience + ad.experience_gain) },
       addRes (consumeAll ad.requires_resources res) rt
         (pyTrunc ((ad.base_yield : ℚ) * TIER_MULTIPLIERS w.job_tier * rng.headD 1)),
       bld,
       .gathered w.name (pyTrunc ((ad.base_yield : ℚ) * TIER_MULTIPLIERS w.job_tier * rng.headD 1))
         rt (max 0 (w.stamina - ad.stamina_cost)) (min 100 (w.experience + ad.experience_gain)),
       rng.drop 1) := by
  unfold execGather
  rw [hreq]

theorem execBuilding_insufficient {action : String} {ad : ActionDef} {b : BKind} {k : ResKind}
    {w : Villager} {res : Res} {bld : Buildings} {rng : List ℚ}
    (hreq : firstInsufficient ad.resource_cost res = some k) :
    execBuilding action w res bld ad b rng = (w, res, bld, .notEnoughResource k action, rng) := by
  unfold execBuilding
  rw [hreq]

theorem execBuilding_ok {action : String} {ad : ActionDef} {b : BKind} {w : Villager}
    {res : Res} {bld : Buildings} {rng : List ℚ}
    (hreq : firstInsufficient ad.resource_cost res = none) :
    execBuilding action w res bld ad b rng =
      ({ w with stamina := max 0 (w.stamina - ad.stamina_cost),
                experience := min 100 (w.experience + ad.experience_gain) },
       consumeAll ad.resource_cost res, addB bld b 1,
       .built w.name b (max 0 (w.stamina - ad.stamina_cost))
         (min 100 (w.experience + ad.experience_gain)),
       rng) := by
  unfold execBuilding
  rw [hreq]

/-- The list of required amounts contains an insufficient entry iff the
first-insufficient scan does not come up empty. -/
theorem firstInsufficient_eq_none_iff {l : List (ResKind × ℤ)} {r : Res} :
    firstInsufficient l r = none ↔ ∀ p ∈ l, ¬(getRes r p.1 < p.2) := by
  induction l with
  | nil => simp [firstInsufficient]
  | cons p rest ih =>
    rcases p with ⟨k, amt⟩
    by_cases h : getRes r k < amt
    · simp [firstInsufficient, h]
    · simp only [firstInsufficient, if_neg h, ih]
      constructor
      · rintro hall q hq
        rcases List.mem_cons.mp hq with rfl | hq2
        · exact h
        · exact hall q hq2
      · intro hall q hq
        exact hall q (List.mem_cons_of_mem _ hq)

theorem firstInsufficient_of_exists {l : List (ResKind × ℤ)} {r : Res}
    (h : ∃ p ∈ l, getRes r p.1 < p.2) : ∃ k, firstInsufficient l r = some k := by
  rcases Option.eq_none_or_eq_some (firstInsufficient l r) with hn | hs
  · rcases h with ⟨p, hp, hlt⟩
    exact absurd hlt (firstInsufficient_eq_none_iff.mp hn p hp)
  · exact hs

theorem pyTrunc_nonneg {q : ℚ} (h : 0 ≤ q) : 0 ≤ pyTrunc q := by
  unfold pyTrunc
  rw [if_neg (not_lt.mpr h)]
  exact Int.floor_nonneg.mpr h

theorem pyTrunc_mono_of_nonneg {a b : ℚ} (ha : 0 ≤ a) (hab : a ≤ b) :
    pyTrunc a ≤ pyTrunc b := by
  unfold pyTrunc
  rw [if_neg (not_lt.mpr ha), if_neg (not_lt.mpr (ha.trans hab))]
  exact Int.floor_le_floor hab

/-- C4: every rejection path of `execute_action` — unknown action, wrong job,
insufficient stamina, missing `cook_food` prerequisite, or an insufficient
resource in a build's `resource_cost` — returns the input villager,
resources and buildings unchanged, with a descriptive failure message. -/
theorem claim_C4_rejection_frame (action : String) (w : Villager) (res : Res)
    (bld : Buildings) (rng : List ℚ) :
    (ACTIONS action = none →
      executeAction action w res bld rng = (w, res, bld, .unknownAction action, rng)) ∧
    (∀ ad, ACTIONS action = some ad →
      ad.job_requirements ≠ [] ∧ w.job ∉ ad.job_requirements →
      executeAction action w res bld rng = (w, res, bld, .wrongJob w.name action, rng)) ∧
    (∀ ad, ACTIONS action = some ad →
      ¬(ad.job_requirements ≠ [] ∧ w.job ∉ ad.job_requirements) →
      w.stamina < ad.stamina_cost →
      executeAction action w res bld rng = (w, res, bld, .tooTired w.name action, rng)) ∧
    (action = "cook_food" → w.job = "chef" → ¬(w.stamina < 0.10) → res.food < 10 →
      executeAction action w res bld rng =
        (w, res, bld, .notEnoughResource .food action, rng)) ∧
    (∀ ad b k, ACTIONS action = some ad → ad.resource = none → ad.building = some b →
      action ≠ "rest" →
      ¬(ad.job_requirements ≠ [] ∧ w.job ∉ ad.job_requirements) →
      ¬(w.stamina < ad.stamina_cost) →
      firstInsufficient ad.resource_cost res = some k →
      executeAction action w res bld rng =
        (w, res, bld, .notEnoughResource k action, rng)) := by
  refine ⟨fun h => executeAction_unknown h,
          fun ad h hj => executeAction_wrongJob h hj,
          fun ad h hj hs => executeAction_tooTired h hj hs,
          ?_,
          fun ad b k h hr hb hrest hj hs hreq =>
            (executeAction_build h hr hb hrest hj hs).trans
              (execBuilding_insufficient hreq)⟩
  rintro rfl hjob hs hfood
  simp [executeAction, ACTIONS, execGather, firstInsufficient, getRes, hjob, hs, hfood]

/-- C4 witness: a villager with stamina 0.1 attempting `chop_wood`
(stamina cost 0.15) is rejected and the state is returned unchanged. -/
theorem claim_C4_witness :
    executeAction "chop_wood"
      { name := "Alice", job := "woodcutter", job_tier := 1, stamina := 0.1,
        experience := 0, assigned_task := none }
      { wood := 0, food := 50, stone := 20 } { houses := 1, workshops := 0, farms := 0 } [] =
    ({ name := "Alice", job := "woodcutter", job_tier := 1, stamina := 0.1,
       experience := 0, assigned_task := none },
     { wood := 0, food := 50, stone := 20 }, { houses := 1, workshops := 0, farms := 0 },
     .tooTired "Alice" "chop_wood", []) :=
  (claim_C4_rejection_frame "chop_wood"
      { name := "Alice", job := "woodcutter", job_tier := 1, stamina := 0.1,
        experience := 0, assigned_task := none }
      { wood := 0, food := 50, stone := 20 } { houses := 1, workshops := 0, farms := 0 }
      []).2.2.1 _ rfl (by decide) (by norm_num [ACTIONS])

/-- C5: a gather action that passes every check adds exactly
`int(base_yield * tier_multiplier * v)` to the named pool, lowers stamina by
the stamina cost, caps experience at 100, and for a fixed draw the yield is
monotone in the tier (tier 1 ≤ tier 2 ≤ tier 3). -/
theorem claim_C5_gather_yield (action : String) (ad : ActionDef) (rt : ResKind) (w : Villager)
    (res : Res) (bld : Buildings) (v : ℚ) (rest : List ℚ)
    (h : ACTIONS action = some ad) (hrt : ad.resource = some rt) (hrest : action ≠ "rest")
    (hj : ¬(ad.job_requirements ≠ [] ∧ w.job ∉ ad.job_requirements))
    (hs : ¬(w.stamina < ad.stamina_cost))
    (hreq : firstInsufficient ad.requires_resources res = none)
    (hv : 0 ≤ v) :
    executeAction action w res bld (v :: rest) =
      ({ w with stamina := w.stamina - ad.stamina_cost,
                experience := min 100 (w.experience + ad.experience_gain) },
       addRes (consumeAll ad.requires_resources res) rt
         (pyTrunc ((ad.base_yield : ℚ) * TIER_MULTIPLIERS w.job_tier * v)),
       bld,
       .gathered w.name (pyTrunc ((ad.base_yield : ℚ) * TIER_MULTIPLIERS w.job_tier * v)) rt
         (w.stamina - ad.stamina_cost) (min 100 (w.experience + ad.experience_gain)),
       rest) ∧
    pyTrunc ((ad.base_yield : ℚ) * TIER_MULTIPLIERS 1 * v) ≤
      pyTrunc ((ad.base_yield : ℚ) * TIER_MULTIPLIERS 2 * v) ∧
    pyTrunc ((ad.base_yield : ℚ) * TIER_MULTIPLIERS 2 * v) ≤
      pyTrunc ((ad.base_yield : ℚ) * TIER_MULTIPLIERS 3 * v) := by
  have hmax : max 0 (w.stamina - ad.stamina_cost) = w.stamina - ad.stamina_cost :=
    max_eq_right (sub_nonneg.mpr (not_lt.mp hs))
  refine ⟨?_, ?_, ?_⟩
  · rw [executeAction_gather h hrt hrest hj hs, execGather_ok hreq]
    simp only [List.headD_cons, List.drop_succ_cons, List.drop_zero, hmax]
  · have hm1 : (0 : ℚ) ≤ TIER_MULTIPLIERS 1 := by norm_num [TIER_MULTIPLIERS]
    refine pyTrunc_mono_of_nonneg
      (mul_nonneg (mul_nonneg (by positivity) hm1) hv) ?_
    have h12 : TIER_MULTIPLIERS 1 ≤ TIER_MULTIPLIERS 2 := by norm_num [TIER_MULTIPLIERS]
    exact mul_le_mul_of_nonneg_right
      (mul_le_mul_of_nonneg_left h12 (by positivity)) hv
  · have hm2 : (0 : ℚ) ≤ TIER_MULTIPLIERS 2 := by norm_num [TIER_MULTIPLIERS]
    refine pyTrunc_mono_of_nonneg
      (mul_nonneg (mul_nonneg (by positivity) hm2) hv) ?_
    have h23 : TIER_MULTIPLIERS 2 ≤ TIER_MULTIPLIERS 3 := by norm_num [TIER_MULTIPLIERS]
    exact mul_le_mul_of_nonneg_right
      (mul_le_mul_of_nonneg_left h23 (by positivity)) hv

/-- C5 witness: a tier-2 lumberjack chopping wood with draw `v = 1.1`
gains `int(10 * 1.5 * 1.1) = 16` wood. -/
theorem claim_C5_witness :
    executeAction "chop_wood"
      { name := "Eve", job := "lumberjack", job_tier := 2, stamina := 1,
        experience := 0, assigned_task := none }
      { wood := 3, food := 50, stone := 20 } { houses := 1, workshops := 0, farms := 0 }
      [11/10] =
    ({ name := "Eve", job := "lumberjack", job_tier := 2, stamina := 17/20,
       experience := 5, assigned_task := none },
     { wood := 19, food := 50, stone := 20 }, { houses := 1, workshops := 0, farms := 0 },
     .gathered "Eve" 16 .wood (17/20) 5, []) := by
  rw [(claim_C5_gather_yield "chop_wood" _ .wood
      { name := "Eve", job := "lumberjack", job_tier := 2, stamina := 1,
        experience := 0, assigned_task := none }
      { wood := 3, food := 50, stone := 20 } { houses := 1, workshops := 0, farms := 0 }
      (11/10) [] rfl rfl (by decide) (by decide) (by norm_num [ACTIONS]) rfl
      (by norm_num)).1]
  norm_num [ACTIONS, addRes, consumeAll, TIER_MULTIPLIERS, pyTrunc, getRes]

/-! ### Resource non-negativity (claim C1) -/

theorem resNonneg_iff {r : Res} : ResNonneg r ↔ ∀ k, 0 ≤ getRes r k := by
  constructor
  · rintro ⟨h1, h2, h3⟩ k
    cases k <;> assumption
  · intro h
    exact ⟨h .wood, h .food, h .stone⟩

theorem getRes_addRes (r : Res) (k k' : ResKind) (n : ℤ) :
    getRes (addRes r k n) k' = if k' = k then getRes r k' + n else getRes r k' := by
  cases k <;> cases k' <;> simp [getRes, addRes]

theorem addRes_nonneg {r : Res} {k : ResKind} {n : ℤ} (hr : ResNonneg r) (hn : 0 ≤ n) :
    ResNonneg (addRes r k n) := by
  rw [resNonneg_iff] at hr ⊢
  intro k'
  rw [getRes_addRes]
  split_ifs
  · exact add_nonneg (hr k') hn
  · exact hr k'

/-- Both requirement tables of every `ACTIONS` entry have pairwise-distinct
resource keys (they embed Python dicts, whose keys are unique). -/
theorem ACTIONS_pairwise (a : String) (ad : ActionDef) (h : ACTIONS a = some ad) :
    ad.requires_resources.Pairwise (fun p q => p.1 ≠ q.1) ∧
    ad.resource_cost.Pairwise (fun p q => p.1 ≠ q.1) := by
  unfold ACTIONS at h
  split at h
  all_goals first
    | exact Option.noConfusion h
    | (cases h; exact ⟨by decide, by decide⟩)

theorem consumeAll_nil (r : Res) : consumeAll [] r = r := rfl

theorem consumeAll_cons (k : ResKind) (a : ℤ) (l : List (ResKind × ℤ)) (r : Res) :
    consumeAll ((k, a) :: l) r = consumeAll l (addRes r k (-a)) := rfl

theorem consumeAll_nonneg :
    ∀ (l : List (ResKind × ℤ)) (r : Res), l.Pairwise (fun p q => p.1 ≠ q.1) →
      firstInsufficient l r = none → ResNonneg r → ResNonneg (consumeAll l r)
  | [], r, _, _, hr => hr
  | (k, a) :: rest, r, hpw, hfi, hr => by
    have hk : ¬(getRes r k < a) := by
      intro hlt
      simp [firstInsufficient, hlt] at hfi
    have hfi2 : firstInsufficient rest r = none := by
      simpa [firstInsufficient, hk] using hfi
    have hne : ∀ p ∈ rest, p.1 ≠ k := by
      intro p hp
      exact fun hpk => (List.pairwise_cons.mp hpw).1 p hp hpk.symm
    have hfi3 : firstInsufficient rest (addRes r k (-a)) = none := by
      rw [firstInsufficient_eq_none_iff]
      intro p hp
      rw [getRes_addRes, if_neg (hne p hp)]
      exact firstInsufficient_eq_none_iff.mp hfi2 p hp
    have hr2 : ResNonneg (addRes r k (-a)) := by
      rw [resNonneg_iff] at hr ⊢
      intro k'
      rw [getRes_addRes]
      split_ifs with he
      · subst he
        omega
      · exact hr k'
    rw [consumeAll_cons]
    exact consumeAll_nonneg rest (addRes r k (-a)) (List.pairwise_cons.mp hpw).2 hfi3 hr2

theorem TIER_MULTIPLIERS_nonneg (n : ℕ) : 0 ≤ TIER_MULTIPLIERS n := by
  unfold TIER_MULTIPLIERS
  split <;> norm_num

theorem headD_one_nonneg {rng : List ℚ} (h : ∀ v ∈ rng, 0 ≤ v) : 0 ≤ rng.headD 1 := by
  cases rng with
  | nil => norm_num
  | cons v rest => exact h v (List.mem_cons_self v rest)

/-- One `execute_action` call keeps all pools non-negative when the incoming
pools are non-negative and the uniform draws are non-negative. -/
theorem executeAction_resNonneg (action : String) (w : Villager) (res : Res)
    (bld : Buildings) (rng : List ℚ) (hres : ResNonneg res)
    (hrng : ∀ v ∈ rng, 0 ≤ v) :
    ResNonneg (executeAction action w res bld rng).2.1 := by
  rcases hA : ACTIONS action with _ | ad
  · rw [executeAction_unknown hA]
    exact hres
  · rw [executeAction_some hA]
    split_ifs with h1 h2 h3
    · exact hres
    · exact hres
    · simp only [execRest]
      exact hres
    · rcases hR : ad.resource with _ | rt
      · rcases hB : ad.building with _ | b
        · dsimp only
          exact hres
        · dsimp only
          rcases hfi : firstInsufficient ad.resource_cost res with _ | k
          · rw [execBuilding_ok hfi]
            exact consumeAll_nonneg _ _ (ACTIONS_pairwise action ad hA).2 hfi hres
          · rw [execBuilding_insufficient hfi]
            exact hres
      · dsimp only
        rcases hfi : firstInsufficient ad.requires_resources res with _ | k
        · rw [execGather_ok hfi]
          refine addRes_nonneg
            (consumeAll_nonneg _ _ (ACTIONS_pairwise action ad hA).1 hfi hres) ?_
          refine pyTrunc_nonneg ?_
          exact mul_nonneg (mul_nonneg (by positivity) (TIER_MULTIPLIERS_nonneg _))
            (headD_one_nonneg hrng)
        · rw [execGather_insufficient hfi]
          exact hres

/-- C1: starting from non-negative pools, every pool stays non-negative
across any sequence of `execute_action` calls; and an action that consumes
resources (the `cook_food` prerequisite, a build's `resource_cost`) is
rejected with the pools (and counters) untouched whenever some required
amount exceeds the available pool. -/
theorem claim_C1_resource_nonneg (steps : List (String × Villager × Buildings × List ℚ))
    (r : Res) (hr : ResNonneg r) (hd : ∀ c ∈ steps, ∀ v ∈ c.2.2.2, 0 ≤ v) :
    ResNonneg (runActions r steps) ∧
    (∀ (action : String) (ad : ActionDef) (rt : ResKind) (w : Villager) (res : Res)
        (bld : Buildings) (rng : List ℚ),
      ACTIONS action = some ad → ad.resource = some rt →
      (∃ p ∈ ad.requires_resources, getRes res p.1 < p.2) →
      (executeAction action w res bld rng).2.1 = res) ∧
    (∀ (action : String) (ad : ActionDef) (b : BKind) (w : Villager) (res : Res)
        (bld : Buildings) (rng : List ℚ),
      ACTIONS action = some ad → ad.resource = none → ad.building = some b →
      (∃ p ∈ ad.resource_cost, getRes res p.1 < p.2) →
      (executeAction action w res bld rng).2.1 = res ∧
      (executeAction action w res bld rng).2.2.1 = bld) := by
  refine ⟨?_, ?_, ?_⟩
  · induction steps generalizing r with
    | nil => exact hr
    | cons c rest ih =>
      simp only [runActions]
      refine ih _ (executeAction_resNonneg c.1 c.2.1 r c.2.2.1 c.2.2.2 hr ?_) ?_
      · exact hd c (List.mem_cons_self c rest)
      · intro c2 hc2
        exact hd c2 (List.mem_cons_of_mem _ hc2)
  · intro action ad rt w res bld rng hA hrt hex
    rcases firstInsufficient_of_exists hex with ⟨k, hk⟩
    rw [executeAction_some hA]
    split_ifs with h1 h2 h3
    · rfl
    · rfl
    · simp only [execRest]
    · rw [hrt]
      dsimp only
      rw [execGather_insufficient hk]
  · intro action ad b w res bld rng hA hr0 hb hex
    rcases firstInsufficient_of_exists hex with ⟨k, hk⟩
    rw [executeAction_some hA]
    split_ifs with h1 h2 h3
    · exact ⟨rfl, rfl⟩
    · exact ⟨rfl, rfl⟩
    · simp only [execRest]
      constructor <;> trivial
    · rw [hr0, hb]
      dsimp only
      rw [execBuilding_insufficient hk]
      exact ⟨rfl, rfl⟩

/-- C1 witness: one `chop_wood` call with draw 1 from the initial pools
keeps all pools non-negative (and the rejection clauses hold). -/
theorem claim_C1_witness :
    ResNonneg (runActions { wood := 50, food := 50, stone := 20 }
      [("chop_wood",
        { name := "Alice", job := "woodcutter", job_tier := 1, stamina := 1,
          experience := 0, assigned_task := none },
        { houses := 1, workshops := 0, farms := 0 }, [1])]) ∧
    (∀ (action : String) (ad : ActionDef) (rt : ResKind) (w : Villager) (res : Res)
        (bld : Buildings) (rng : List ℚ),
      ACTIONS action = some ad → ad.resource = some rt →
      (∃ p ∈ ad.requires_resources, getRes res p.1 < p.2) →
      (executeAction action w res bld rng).2.1 = res) ∧
    (∀ (action : String) (ad : ActionDef) (b : BKind) (w : Villager) (res : Res)
        (bld : Buildings) (rng : List ℚ),
      ACTIONS action = some ad → ad.resource = none → ad.building = some b →
      (∃ p ∈ ad.resource_cost, getRes res p.1 < p.2) →
      (executeAction action w res bld rng).2.1 = res ∧
      (executeAction action w res bld rng).2.2.1 = bld) :=
  claim_C1_resource_nonneg _ _ (by norm_num [ResNonneg]) (by norm_num)

/-! ### `execute_day` behaviour (claim C2) -/

/-- Applying `chop_wood` to an eligible, rested-enough villager: the wood
pool gains `int(10 * tier_mult * v)` for the next uniform draw `v`. -/
theorem executeAction_chop (w : Villager) (res : Res) (bld : Buildings) (v : ℚ)
    (rest : List ℚ) (hj : w.job ∈ ["woodcutter", "lumberjack", "builder"])
    (hs : ¬(w.stamina < 0.15)) :
    executeAction "chop_wood" w res bld (v :: rest) =
      ({ w with stamina := w.stamina - 0.15, experience := min 100 (w.experience + 5) },
       { res with wood := res.wood + pyTrunc ((10 : ℚ) * TIER_MULTIPLIERS w.job_tier * v) },
       bld,
       .gathered w.name (pyTrunc ((10 : ℚ) * TIER_MULTIPLIERS w.job_tier * v)) .wood
         (w.stamina - 0.15) (min 100 (w.experience + 5)),
       rest) := by
  have hA : ACTIONS "chop_wood" = some
      { resource := some .wood, base_yield := 10, stamina_cost := 0.15,
        experience_gain := 5,
        job_requirements := ["woodcutter", "lumberjack", "builder"] } := rfl
  rw [executeAction_gather hA rfl (by decide) (fun hc => hc.2 hj) hs]
  simp only [execGather, firstInsufficient, consumeAll, List.foldl_nil, List.headD_cons,
    List.drop_succ_cons, List.drop_zero]
  rw [max_eq_right (sub_nonneg.mpr (not_lt.mp hs))]
  simp [addRes]

/-- C2: `execute_day` increments the day counter by exactly 1; a villager
with no assigned task is skipped with villager, resources and buildings
unchanged (an idle message is emitted); a villager with a task is executed
against the live shared state that later villagers then observe; and two
eligible choppers starting from a wood pool of 0 both succeed, the pool
ending at the sum of their two yields. -/
theorem claim_C2_execute_day :
    (∀ (s : VillageState) (rng : List ℚ), (executeDay s rng).1.day = s.day + 1) ∧
    (∀ (w : Villager) (ws : List Villager) (res : Res) (bld : Buildings) (rng : List ℚ),
      w.assigned_task = none →
      execVillagers (w :: ws) res bld rng =
        (w :: (execVillagers ws res bld rng).1,
         (execVillagers ws res bld rng).2.1,
         (execVillagers ws res bld rng).2.2.1,
         .idle w.name :: (execVillagers ws res bld rng).2.2.2.1,
         (execVillagers ws res bld rng).2.2.2.2)) ∧
    (∀ (w : Villager) (ws : List Villager) (res : Res) (bld : Buildings) (rng : List ℚ)
        (t : String), w.assigned_task = some t → t ≠ "" →
      execVillagers (w :: ws) res bld rng =
        ((executeAction t w res bld rng).1 ::
          (execVillagers ws (executeAction t w res bld rng).2.1
            (executeAction t w res bld rng).2.2.1
            (executeAction t w res bld rng).2.2.2.2).1,
         (execVillagers ws (executeAction t w res bld rng).2.1
            (executeAction t w res bld rng).2.2.1
            (executeAction t w res bld rng).2.2.2.2).2.1,
         (execVillagers ws (executeAction t w res bld rng).2.1
            (executeAction t w res bld rng).2.2.1
            (executeAction t w res bld rng).2.2.2.2).2.2.1,
         (executeAction t w res bld rng).2.2.2.1 ::
           (execVillagers ws (executeAction t w res bld rng).2.1
             (executeAction t w res bld rng).2.2.1
             (executeAction t w res bld rng).2.2.2.2).2.2.2.1,
         (execVillagers ws (executeAction t w res bld rng).2.1
            (executeAction t w res bld rng).2.2.1
            (executeAction t w res bld rng).2.2.2.2).2.2.2.2)) ∧
    (∀ (w1 w2 : Villager) (v1 v2 : ℚ) (food stone : ℤ) (bld : Buildings) (day : ℕ),
      w1.assigned_task = some "chop_wood" → w2.assigned_task = some "chop_wood" →
      w1.job ∈ ["woodcutter", "lumberjack", "builder"] →
      w2.job ∈ ["woodcutter", "lumberjack", "builder"] →
      ¬(w1.stamina < 0.15) → ¬(w2.stamina < 0.15) →
      (executeDay { resources := { wood := 0, food := food, stone := stone },
                    villagers := [w1, w2], buildings := bld, day := day }
        [v1, v2]).1.resources.wood =
        pyTrunc ((10 : ℚ) * TIER_MULTIPLIERS w1.job_tier * v1) +
          pyTrunc ((10 : ℚ) * TIER_MULTIPLIERS w2.job_tier * v2) ∧
      (executeDay { resources := { wood := 0, food := food, stone := stone },
                    villagers := [w1, w2], buildings := bld, day := day }
        [v1, v2]).2.1 =
        [.gathered w1.name (pyTrunc ((10 : ℚ) * TIER_MULTIPLIERS w1.job_tier * v1)) .wood
           (w1.stamina - 0.15) (min 100 (w1.experience + 5)),
         .gathered w2.name (pyTrunc ((10 : ℚ) * TIER_MULTIPLIERS w2.job_tier * v2)) .wood
           (w2.stamina - 0.15) (min 100 (w2.experience + 5))]) := by
  refine ⟨?_, ?_, ?_, ?_⟩
  · intro s rng
    rcases h : execVillagers s.villagers s.resources s.buildings rng with
      ⟨ws1, res1, bld1, ms, rng1⟩
    simp [executeDay, h]
  · intro w ws res bld rng htask
    rcases h : execVillagers ws res bld rng with ⟨ws1, res1, bld1, ms, rng1⟩
    simp [execVillagers, htask, h]
  · intro w ws res bld rng t htask hne
    rcases he : executeAction t w res bld rng with ⟨w1, res2, bld2, m, rng2⟩
    rcases h : execVillagers ws res2 bld2 rng2 with ⟨ws1, res1, bld1, ms, rng1⟩
    simp [execVillagers, htask, hne, he, h]
  · intro w1 w2 v1 v2 food stone bld day htask1 htask2 hj1 hj2 hs1 hs2
    have h1 := executeAction_chop w1 { wood := 0, food := food, stone := stone } bld v1 [v2]
      hj1 hs1
    dsimp only at h1
    have h2 := executeAction_chop w2
      { wood := (0 : ℤ) + pyTrunc ((10 : ℚ) * TIER_MULTIPLIERS w1.job_tier * v1),
        food := food, stone := stone } bld v2 [] hj2 hs2
    dsimp only at h2
    simp only [executeDay, execVillagers, htask1, htask2, Option.getD_some,
      show (some "chop_wood" = (none : Option String) ∨ some "chop_wood" = some "") = False
        from by simp,
      if_false]
    rw [h1]
    dsimp only
    rw [h2]
    dsimp only
    constructor
    · simp
    · simp

/-- C2 witness: a tier-1 and a tier-2 chopper with draws 1 and 1.1 take the
wood pool from 0 to `10 + 16 = 26` in one day. -/
theorem claim_C2_witness :
    (executeDay
      { resources := { wood := 0, food := 50, stone := 20 },
        villagers := [
          { name := "Alice", job := "woodcutter", job_tier := 1, stamina := 1,
            experience := 0, assigned_task := some "chop_wood" },
          { name := "Eve", job := "lumberjack", job_tier := 2, stamina := 1,
            experience := 0, assigned_task := some "chop_wood" }],
        buildings := { houses := 1, workshops := 0, farms := 0 }, day := 1 }
      [1, 11/10]).1.resources.wood = 26 := by
  have h := claim_C2_execute_day.2.2.2
    { name := "Alice", job := "woodcutter", job_tier := 1, stamina := 1,
      experience := 0, assigned_task := some "chop_wood" }
    { name := "Eve", job := "lumberjack", job_tier := 2, stamina := 1,
      experience := 0, assigned_task := some "chop_wood" }
    1 (11/10) 50 20 { houses := 1, workshops := 0, farms := 0 } 1
    rfl rfl (by decide) (by decide) (by norm_num) (by norm_num)
  rw [h.1]
  norm_num [TIER_MULTIPLIERS, pyTrunc]

/-! ### `cut_tree` behaviour (claim C3) -/

theorem cutTree_noTile {g : GridState} {x y tid : ℕ} {w : ℤ}
    (h : g.grid.find? (fun t => t.x == x && t.y == y) = none) :
    cutTree g x y tid w = (g, false, 0) := by
  unfold cutTree
  rw [h]

theorem cutTree_noTree {g : GridState} {x y tid : ℕ} {w : ℤ} {tile : Tile}
    (h : g.grid.find? (fun t => t.x == x && t.y == y) = some tile)
    (h2 : cutTreeInList tile.trees tid = none) :
    cutTree g x y tid w = (g, false, 0) := by
  unfold cutTree
  rw [h]
  dsimp only
  rw [h2]

theorem cutTree_found {g : GridState} {x y tid : ℕ} {w : ℤ} {tile : Tile} {ts' : List Tree}
    (h : g.grid.find? (fun t => t.x == x && t.y == y) = some tile)
    (h2 : cutTreeInList tile.trees tid = some ts') :
    cutTree g x y tid w =
      ({ g with grid := updTile x y ts' g.grid,
                resources := { g.resources with wood := g.resources.wood + w } },
       true, w) := by
  unfold cutTree
  rw [h]
  dsimp only
  rw [h2]

/-- The `cut_tree` loop finds nothing exactly when every tree on the tile
carrying the requested id is already cut (in particular when the id is
absent from the tile). -/
theorem cutTreeInList_none_iff (ts : List Tree) (tid : ℕ) :
    cutTreeInList ts tid = none ↔ ∀ t ∈ ts, t.id = tid → t.cut = true := by
  induction ts with
  | nil => simp [cutTreeInList]
  | cons t rest ih =>
    by_cases h : t.id = tid ∧ t.cut = false
    · have hno : ¬ ∀ u ∈ t :: rest, u.id = tid → u.cut = true := by
        intro hall
        have := hall t (List.mem_cons_self t rest) h.1
        rw [h.2] at this
        exact Bool.noConfusion this
      simp [cutTreeInList, h, hno]
    · have hti : t.id = tid → t.cut = true := by
        intro hid
        by_contra hcut
        exact h ⟨hid, by simpa using hcut⟩
      simp only [cutTreeInList, if_neg h, Option.map_eq_none', ih, List.forall_mem_cons]
      constructor
      · intro hall
        exact ⟨hti, hall⟩
      · intro hall
        exact hall.2

theorem cutTreeInList_split (pre : List Tree) (t : Tree) (post : List Tree) (tid : ℕ)
    (hpre : ∀ u ∈ pre, ¬(u.id = tid ∧ u.cut = false)) (hid : t.id = tid)
    (hcut : t.cut = false) :
    cutTreeInList (pre ++ t :: post) tid =
      some (pre ++ { t with cut := true } :: post) := by
  induction pre with
  | nil => simp [cutTreeInList, hid, hcut]
  | cons u us ih =>
    have hu : ¬(u.id = tid ∧ u.cut = false) := hpre u (List.mem_cons_self u us)
    simp [cutTreeInList, hu, ih (fun v hv => hpre v (List.mem_cons_of_mem u hv))]

/-- Cutting only flips a `cut` flag: the id sequence of the tile's trees is
unchanged. -/
theorem cutTreeInList_map_id :
    ∀ (ts : List Tree) (tid : ℕ) (ts' : List Tree), cutTreeInList ts tid = some ts' →
      ts'.map Tree.id = ts.map Tree.id
  | [], tid, ts', h => by simp [cutTreeInList] at h
  | t :: rest, tid, ts', h => by
    by_cases hc : t.id = tid ∧ t.cut = false
    · rw [cutTreeInList, if_pos hc] at h
      cases h
      simp
    · rw [cutTreeInList, if_neg hc] at h
      rcases Option.map_eq_some.mp h with ⟨rs', hrs', rfl⟩
      simp [cutTreeInList_map_id rest tid rs' hrs']

theorem find?_updTile (x y : ℕ) (ts' : List Tree) :
    ∀ (l : List Tile) (tile : Tile),
      l.find? (fun t => t.x == x && t.y == y) = some tile →
      (updTile x y ts' l).find? (fun t => t.x == x && t.y == y) =
        some { tile with trees := ts' }
  | [], tile, h => by simp [List.find?] at h
  | t :: rest, tile, h => by
    cases hp : (t.x == x && t.y == y) with
    | true =>
      simp only [List.find?, hp] at h
      injection h with h
      subst h
      rw [updTile, if_pos hp]
      simp [List.find?, hp]
    | false =>
      simp only [List.find?, hp] at h
      rw [updTile, if_neg (by simp [hp])]
      simp only [List.find?, hp]
      exact find?_updTile x y ts' rest tile h

/-- After the only uncut tree with the requested id is flipped, a second
scan for the same id finds nothing (given tile-local id uniqueness). -/
theorem cutTreeInList_after (pre : List Tree) (t : Tree) (post : List Tree) (tid : ℕ)
    (hnd : ((pre ++ t :: post).map Tree.id).Nodup) (hid : t.id = tid) :
    cutTreeInList (pre ++ { t with cut := true } :: post) tid = none := by
  rw [cutTreeInList_none_iff]
  intro u hu huid
  have hnd' := hnd
  simp only [List.map_append, List.map_cons, List.nodup_append] at hnd'
  rcases List.mem_append.mp hu with hupre | humid
  · exfalso
    have h1 : u.id ∈ pre.map Tree.id := List.mem_map_of_mem Tree.id hupre
    have h2 : u.id ∈ t.id :: post.map Tree.id := by
      rw [huid, ← hid]
      exact List.mem_cons_self _ _
    exact hnd'.2.2 h1 h2
  · rcases List.mem_cons.mp humid with rfl | hupost
    · rfl
    · exfalso
      have h3 : u.id ∈ post.map Tree.id := List.mem_map_of_mem Tree.id hupost
      have h4 := (List.nodup_cons.mp hnd'.2.1).1
      rw [huid, ← hid] at h3
      exact h4 h3

/-- C3: `cut_tree` fails silently, leaving the whole grid state unchanged,
when the tile is absent or no uncut tree with the id is on the tile; on
success it flips that tree's `cut` flag, adds the wood draw `w ∈ [5, 15]`
to the pool and returns `(true, w)`; and with tile-local id uniqueness a
second cut of the same `(x, y, tree_id)` returns `(false, 0)` with the pool
having grown by exactly the first draw. -/
theorem claim_C3_cut_tree :
    (∀ (g : GridState) (x y tid : ℕ) (w : ℤ),
      g.grid.find? (fun t => t.x == x && t.y == y) = none →
      cutTree g x y tid w = (g, false, 0)) ∧
    (∀ (g : GridState) (x y tid : ℕ) (w : ℤ) (tile : Tile),
      g.grid.find? (fun t => t.x == x && t.y == y) = some tile →
      (∀ t ∈ tile.trees, t.id = tid → t.cut = true) →
      cutTree g x y tid w = (g, false, 0)) ∧
    (∀ (g : GridState) (x y tid : ℕ) (w : ℤ) (tile : Tile) (pre : List Tree) (t : Tree)
        (post : List Tree),
      g.grid.find? (fun t => t.x == x && t.y == y) = some tile →
      tile.trees = pre ++ t :: post → t.id = tid → t.cut = false →
      (∀ u ∈ pre, ¬(u.id = tid ∧ u.cut = false)) →
      5 ≤ w → w ≤ 15 →
      cutTree g x y tid w =
        ({ g with grid := updTile x y (pre ++ { t with cut := true } :: post) g.grid,
                  resources := { g.resources with wood := g.resources.wood + w } },
         true, w)) ∧
    (∀ (g : GridState) (x y tid : ℕ) (w w' : ℤ) (tile : Tile) (pre : List Tree) (t : Tree)
        (post : List Tree),
      g.grid.find? (fun t => t.x == x && t.y == y) = some tile →
      tile.trees = pre ++ t :: post → t.id = tid → t.cut = false →
      (∀ u ∈ pre, ¬(u.id = tid ∧ u.cut = false)) →
      (tile.trees.map Tree.id).Nodup →
      (cutTree g x y tid w).2 = (true, w) ∧
      (cutTree g x y tid w).1.resources.wood = g.resources.wood + w ∧
      cutTree (cutTree g x y tid w).1 x y tid w' = ((cutTree g x y tid w).1, false, 0)) := by
  refine ⟨fun g x y tid w h => cutTree_noTile h,
          fun g x y tid w tile h hall =>
            cutTree_noTree h ((cutTreeInList_none_iff tile.trees tid).mpr hall),
          ?_, ?_⟩
  · intro g x y tid w tile pre t post h hsplit hid hcut hpre _ _
    rw [cutTree_found h (by rw [hsplit]; exact cutTreeInList_split pre t post tid hpre hid hcut)]
  · intro g x y tid w w' tile pre t post h hsplit hid hcut hpre hnd
    have hsome : cutTreeInList tile.trees tid =
        some (pre ++ { t with cut := true } :: post) := by
      rw [hsplit]
      exact cutTreeInList_split pre t post tid hpre hid hcut
    have hfirst := cutTree_found (w := w) h hsome
    refine ⟨by rw [hfirst], by rw [hfirst], ?_⟩
    have hfind2 : (cutTree g x y tid w).1.grid.find? (fun t => t.x == x && t.y == y) =
        some { tile with trees := pre ++ { t with cut := true } :: post } := by
      rw [hfirst]
      exact find?_updTile x y _ g.grid tile h
    have hnone : cutTreeInList (pre ++ { t with cut := true } :: post) tid = none := by
      rw [hsplit] at hnd
      exact cutTreeInList_after pre t post tid hnd hid
    exact cutTree_noTree hfind2 hnone

/-- C3 witness: on a one-tile grid with a single uncut tree, the first cut
succeeds with yield 7 and the second returns `(false, 0)`. -/
theorem claim_C3_witness :
    (cutTree
        { grid_size := 1,
          grid := [{ x := 0, y := 0, tile_type := .grass,
                     trees := [{ id := 0, offset_x := 1/2, offset_y := 1/2, cut := false,
                                 species := "oak" }] }],
          resources := { wood := 0, food := 0, stone := 0 }, tree_id_counter := 1 }
        0 0 0 7).2 = (true, 7) ∧
    (cutTree
        { grid_size := 1,
          grid := [{ x := 0, y := 0, tile_type := .grass,
                     trees := [{ id := 0, offset_x := 1/2, offset_y := 1/2, cut := false,
                                 species := "oak" }] }],
          resources := { wood := 0, food := 0, stone := 0 }, tree_id_counter := 1 }
        0 0 0 7).1.resources.wood =
      ({ grid_size := 1,
         grid := [{ x := 0, y := 0, tile_type := .grass,
                    trees := [{ id := 0, offset_x := 1/2, offset_y := 1/2, cut := false,
                                species := "oak" }] }],
         resources := { wood := 0, food := 0, stone := 0 },
         tree_id_counter := 1 } : GridState).resources.wood + 7 ∧
    cutTree
        (cutTree
          { grid_size := 1,
            grid := [{ x := 0, y := 0, tile_type := .grass,
                       trees := [{ id := 0, offset_x := 1/2, offset_y := 1/2, cut := false,
                                   species := "oak" }] }],
            resources := { wood := 0, food := 0, stone := 0 }, tree_id_counter := 1 }
          0 0 0 7).1
        0 0 0 9 =
      ((cutTree
          { grid_size := 1,
            grid := [{ x := 0, y := 0, tile_type := .grass,
                       trees := [{ id := 0, offset_x := 1/2, offset_y := 1/2, cut := false,
                                   species := "oak" }] }],
            resources := { wood := 0, food := 0, stone := 0 }, tree_id_counter := 1 }
          0 0 0 7).1, false, 0) :=
  claim_C3_cut_tree.2.2.2
    { grid_size := 1,
      grid := [{ x := 0, y := 0, tile_type := .grass,
                 trees := [{ id := 0, offset_x := 1/2, offset_y := 1/2, cut := false,
                             species := "oak" }] }],
      resources := { wood := 0, food := 0, stone := 0 }, tree_id_counter := 1 }
    0 0 0 7 9
    { x := 0, y := 0, tile_type := .grass,
      trees := [{ id := 0, offset_x := 1/2, offset_y := 1/2, cut := false,
                  species := "oak" }] }
    [] { id := 0, offset_x := 1/2, offset_y := 1/2, cut := false, species := "oak" } []
    (by rfl) (by rfl) rfl rfl (by simp) (by decide)

/-! ### Builder `action_build` (claim C9) and directive frame (claim C10) -/

/-- C9: `action_build` rejects — leaving position and the private inventory
untouched — when the target is out of bounds, farther than Manhattan
distance 2, an unknown building type, or unaffordable; on success it
deducts exactly the fixed `(wood, stone)` cost from the private inventory
(no shared village counter exists in this code path). Scenario: inventory
`{wood: 100, stone: 50}` at `(5, 5)` building a house at `(6, 5)` ends at
`{wood: 50, stone: 30}`. -/
theorem claim_C9_action_build :
    (∀ (gs : ℕ) (b : BuilderState) (bt : String) (x y : ℕ),
      ¬(x < gs ∧ y < gs) → actionBuild gs b bt x y = (b, .outOfBounds x y)) ∧
    (∀ (gs : ℕ) (b : BuilderState) (bt : String) (x y : ℕ),
      (x < gs ∧ y < gs) → manhattan x y b.x b.y > 2 →
      actionBuild gs b bt x y = (b, .tooFar x y)) ∧
    (∀ (gs : ℕ) (b : BuilderState) (bt : String) (x y : ℕ),
      (x < gs ∧ y < gs) → ¬(manhattan x y b.x b.y > 2) → buildRequirements bt = none →
      actionBuild gs b bt x y = (b, .unknownType bt)) ∧
    (∀ (gs : ℕ) (b : BuilderState) (bt : String) (x y : ℕ) (cw cs : ℤ),
      (x < gs ∧ y < gs) → ¬(manhattan x y b.x b.y > 2) →
      buildRequirements bt = some (cw, cs) → (b.wood < cw ∨ b.stone < cs) →
      actionBuild gs b bt x y = (b, .insufficient bt)) ∧
    (∀ (gs : ℕ) (b : BuilderState) (bt : String) (x y : ℕ) (cw cs : ℤ),
      (x < gs ∧ y < gs) → ¬(manhattan x y b.x b.y > 2) →
      buildRequirements bt = some (cw, cs) → ¬(b.wood < cw ∨ b.stone < cs) →
      actionBuild gs b bt x y =
        ({ b with wood := b.wood - cw, stone := b.stone - cs }, .built bt x y)) ∧
    (∀ gs : ℕ, 6 < gs →
      actionBuild gs { x := 5, y := 5, wood := 100, stone := 50, food := 0 } "house" 6 5 =
        ({ x := 5, y := 5, wood := 50, stone := 30, food := 0 }, .built "house" 6 5)) := by
  refine ⟨?_, ?_, ?_, ?_, ?_, ?_⟩
  · intro gs b bt x y hb
    rw [actionBuild, if_pos hb]
  · intro gs b bt x y hb hd
    rw [actionBuild, if_neg (not_not.mpr hb), if_pos hd]
  · intro gs b bt x y hb hd hreq
    rw [actionBuild, if_neg (not_not.mpr hb), if_neg hd, hreq]
  · intro gs b bt x y cw cs hb hd hreq hins
    rw [actionBuild, if_neg (not_not.mpr hb), if_neg hd, hreq]
    dsimp only
    rw [if_pos hins]
  · intro gs b bt x y cw cs hb hd hreq hins
    rw [actionBuild, if_neg (not_not.mpr hb), if_neg hd, hreq]
    dsimp only
    rw [if_neg hins]
  · intro gs hgs
    rw [actionBuild, if_neg (not_not.mpr ⟨hgs, by omega⟩),
        if_neg (by norm_num [manhattan]), show buildRequirements "house" = some (50, 20)
          from rfl]
    norm_num

/-- C9 witness: the scenario clause at grid size 40. -/
theorem claim_C9_witness :
    actionBuild 40 { x := 5, y := 5, wood := 100, stone := 50, food := 0 } "house" 6 5 =
      ({ x := 5, y := 5, wood := 50, stone := 30, food := 0 }, .built "house" 6 5) :=
  claim_C9_action_build.2.2.2.2.2 40 (by norm_num)

/-- C10: applying an assignment whose `new_job` equals the villager's
current job leaves job and tier unchanged — even when the assignment's tier
field differs — and only overwrites `assigned_task` when a truthy task is
provided; in general the tier field changes only together with a job-name
change. -/
theorem claim_C10_assignment_frame :
    (∀ (a : Assignment) (w : Villager), a.new_job = w.job →
      applyAssignmentToVillager a w =
        { w with assigned_task :=
            if a.task ≠ "" then some a.task else w.assigned_task }) ∧
    (∀ (a : Assignment) (w : Villager),
      (applyAssignmentToVillager a w).job_tier ≠ w.job_tier →
      (applyAssignmentToVillager a w).job ≠ w.job) := by
  constructor
  · intro a w hjob
    simp only [applyAssignmentToVillager]
    rw [if_neg (show ¬(a.new_job ≠ "" ∧ a.new_job ≠ w.job) from fun hc => hc.2 hjob)]
    split_ifs <;> rfl
  · intro a w
    simp only [applyAssignmentToVillager]
    split_ifs with h1 h2 <;> intro hne <;> simp_all

/-- C10 witness: an assignment repeating the current job `"miner"` with a
different tier field changes only the task. -/
theorem claim_C10_witness :
    applyAssignmentToVillager
      { name := "Charlie", new_job := "miner", job_tier := 3, task := "mine_stone" }
      { name := "Charlie", job := "miner", job_tier := 1, stamina := 1,
        experience := 0, assigned_task := none } =
    { name := "Charlie", job := "miner", job_tier := 1, stamina := 1,
      experience := 0,
      assigned_task :=
        if ({ name := "Charlie", new_job := "miner", job_tier := 3,
              task := "mine_stone" } : Assignment).task ≠ "" then
          some ({ name := "Charlie", new_job := "miner", job_tier := 3,
                  task := "mine_stone" } : Assignment).task
        else none } :=
  claim_C10_assignment_frame.1
    { name := "Charlie", new_job := "miner", job_tier := 3, task := "mine_stone" }
    { name := "Charlie", job := "miner", job_tier := 1, stamina := 1,
      experience := 0, assigned_task := none } rfl

/-- C6: with resources `{wood: 250, stone: 0, food: 0}`, the fallback rule
policy promotes a lumberjack (tier 2, experience 90, stamina ≥ 0.2) to
builder tier 3, assigns `build_house`, and emits the build action
`{building: house, assigned_to: actor}`. -/
theorem claim_C6_promotion_scenario (s : ℚ) (nm : String) (task : Option String)
    (bld : Buildings) (day : ℕ) (hs : (0.2 : ℚ) ≤ s) :
    fallbackLogic
      { resources := { wood := 250, stone := 0, food := 0 },
        villagers := [{ name := nm, job := "lumberjack", job_tier := 2, stamina := s,
                        experience := 90, assigned_task := task }],
        buildings := bld, day := day } =
    { assignments := [{ name := nm, new_job := "builder", job_tier := 3,
                        task := "build_house" }],
      build_actions := [{ building := "house", assigned_to := nm }] } := by
  simp only [fallbackLogic, fallbackAux, fallbackStep]
  rw [if_neg (not_lt.mpr hs)]
  simp [checkPromotion, assignTask, strStarts, listPre, strReplace, repAux]

/-- C6 witness: the scenario at stamina 1 for an actor named Dave. -/
theorem claim_C6_witness :
    fallbackLogic
      { resources := { wood := 250, stone := 0, food := 0 },
        villagers := [{ name := "Dave", job := "lumberjack", job_tier := 2, stamina := 1,
                        experience := 90, assigned_task := none }],
        buildings := { houses := 1, workshops := 0, farms := 0 }, day := 1 } =
    { assignments := [{ name := "Dave", new_job := "builder", job_tier := 3,
                        task := "build_house" }],
      build_actions := [{ building := "house", assigned_to := "Dave" }] } :=
  claim_C6_promotion_scenario 1 "Dave" none { houses := 1, workshops := 0, farms := 0 } 1
    (by norm_num)

/-! ### Grid invariants (claim C8) -/

theorem mkTrees_spec (c : GenChoices) : ∀ (n counter : ℕ),
    (mkTrees c n counter).1.map Tree.id = List.range' counter n ∧
    (mkTrees c n counter).2 = counter + n
  | 0, counter => by simp [mkTrees, List.range']
  | n + 1, counter => by
    rcases h : mkTrees c n (counter + 1) with ⟨ts, c1⟩
    have ih := mkTrees_spec c n (counter + 1)
    rw [h] at ih
    dsimp only at ih
    simp only [mkTrees, h]
    refine ⟨?_, ?_⟩
    · simp only [List.map_cons, List.range']
      rw [ih.1]
    · dsimp only
      omega

theorem generateTrees_spec (c : GenChoices) (x y : ℕ) (tt : TileType) (counter : ℕ) :
    ((generateTreesForTile c x y tt counter).1.map Tree.id =
      List.range' counter ((generateTreesForTile c x y tt counter).2 - counter)) ∧
    counter ≤ (generateTreesForTile c x y tt counter).2 ∧
    (tt = .water → (generateTreesForTile c x y tt counter).1 = []) := by
  unfold generateTreesForTile
  by_cases hw : tt = .water
  · simp [hw, List.range']
  · rw [if_neg hw]
    have h := mkTrees_spec c (if c.coin x y < 0.7 then c.pick12 x y else 0) counter
    refine ⟨?_, ?_, fun hww => absurd hww hw⟩
    · rw [h.1, h.2]
      simp
    · rw [h.2]
      omega

theorem initAux_spec (c : GenChoices) : ∀ (coords : List (ℕ × ℕ)) (counter : ℕ),
    (((initAux c coords counter).1.flatMap Tile.trees).map Tree.id =
      List.range' counter ((initAux c coords counter).2 - counter)) ∧
    counter ≤ (initAux c coords counter).2 ∧
    (∀ tile ∈ (initAux c coords counter).1, tile.tile_type = .water → tile.trees = [])
  | [], counter => by simp [initAux, List.range']
  | (x, y) :: rest, counter => by
    rcases hg : generateTreesForTile c x y (c.tileType x y) counter with ⟨ts, c1⟩
    have hgs := generateTrees_spec c x y (c.tileType x y) counter
    rw [hg] at hgs
    rcases hr : initAux c rest c1 with ⟨tiles, c2⟩
    have ih := initAux_spec c rest c1
    rw [hr] at ih
    dsimp only at hgs ih
    simp only [initAux, hg, hr]
    have ha : counter ≤ c1 := hgs.2.1
    have hb : c1 ≤ c2 := ih.2.1
    refine ⟨?_, by omega, ?_⟩
    · dsimp only
      simp only [List.flatMap_cons, List.map_append]
      rw [hgs.1, ih.1]
      have happ := List.range'_append counter (c1 - counter) (c2 - c1) 1
      simp only [one_mul] at happ
      rw [show counter + (c1 - counter) = c1 from by omega] at happ
      rw [happ, show c2 - c1 + (c1 - counter) = c2 - counter from by omega]
    · intro tile htile hwater
      rcases List.mem_cons.mp htile with rfl | htile2
      · exact hgs.2.2 hwater
      · exact ih.2.2 tile htile2 hwater

theorem gridInv_init (c : GenChoices) (size : ℕ) : GridInv (initializeGrid c size) := by
  unfold initializeGrid
  rcases h : initAux c (coordList size) 0 with ⟨tiles, counter⟩
  have hs := initAux_spec c (coordList size) 0
  rw [h] at hs
  constructor
  · simp only [allTrees]
    rw [hs.1, List.range_eq_range']
    simp
  · exact hs.2.2

theorem flatMap_updTile_id (x y : ℕ) (ts' : List Tree) :
    ∀ (l : List Tile) (tile : Tile),
      l.find? (fun t => t.x == x && t.y == y) = some tile →
      ts'.map Tree.id = tile.trees.map Tree.id →
      ((updTile x y ts' l).flatMap Tile.trees).map Tree.id =
        (l.flatMap Tile.trees).map Tree.id
  | [], tile, h, _ => by simp [List.find?] at h
  | t :: rest, tile, h, hid => by
    cases hp : (t.x == x && t.y == y) with
    | true =>
      simp only [List.find?, hp] at h
      injection h with h
      subst h
      rw [updTile, if_pos hp]
      simp only [List.flatMap_cons, List.map_append, hid]
    | false =>
      simp only [List.find?, hp] at h
      rw [updTile, if_neg (by simp [hp])]
      simp only [List.flatMap_cons, List.map_append,
        flatMap_updTile_id x y ts' rest tile h hid]

theorem updTile_water (x y : ℕ) (ts' : List Tree) :
    ∀ (l : List Tile) (tile : Tile),
      l.find? (fun t => t.x == x && t.y == y) = some tile →
      tile.tile_type ≠ .water →
      (∀ u ∈ l, u.tile_type = .water → u.trees = []) →
      ∀ u ∈ updTile x y ts' l, u.tile_type = .water → u.trees = []
  | [], tile, h, _, _ => by simp [List.find?] at h
  | t :: rest, tile, h, hnw, hall => by
    cases hp : (t.x == x && t.y == y) with
    | true =>
      simp only [List.find?, hp] at h
      injection h with h
      subst h
      rw [updTile, if_pos hp]
      intro u hu hw
      rcases List.mem_cons.mp hu with rfl | hu2
      · exact absurd hw hnw
      · exact hall u (List.mem_cons_of_mem _ hu2) hw
    | false =>
      simp only [List.find?, hp] at h
      rw [updTile, if_neg (by simp [hp])]
      intro u hu hw
      rcases List.mem_cons.mp hu with rfl | hu2
      · exact hall u (List.mem_cons_self _ _) hw
      · exact updTile_water x y ts' rest tile h hnw
          (fun v hv => hall v (List.mem_cons_of_mem _ hv)) u hu2 hw

theorem gridInv_cut (g : GridState) (x y tid : ℕ) (w : ℤ) (hinv : GridInv g) :
    GridInv (cutTree g x y tid w).1 := by
  rcases hf : g.grid.find? (fun t => t.x == x && t.y == y) with _ | tile
  · rw [cutTree_noTile hf]
    exact hinv
  · rcases hc : cutTreeInList tile.trees tid with _ | ts'
    · rw [cutTree_noTree hf hc]
      exact hinv
    · rw [cutTree_found hf hc]
      have hid := cutTreeInList_map_id tile.trees tid ts' hc
      have hnw : tile.tile_type ≠ .water := by
        intro hw
        have := hinv.2 tile (List.mem_of_find?_eq_some hf) hw
        rw [this] at hc
        simp [cutTreeInList] at hc
      constructor
      · simp only [allTrees]
        rw [flatMap_updTile_id x y ts' g.grid tile hf hid]
        exact hinv.1
      · exact updTile_water x y ts' g.grid tile hf hnw hinv.2

theorem gridInv_reachable {g : GridState} (h : GridReachable g) : GridInv g := by
  induction h with
  | init c size => exact gridInv_init c size
  | cut g x y tid w _ ih => exact gridInv_cut g x y tid w ih

theorem length_filter_not_add (p : Tree → Bool) :
    ∀ l : List Tree, (l.filter p).length + (l.filter (fun a => !(p a))).length = l.length := by
  intro l
  induction l with
  | nil => simp
  | cons t rest ih =>
    by_cases h : p t = true
    · simp [List.filter_cons, h, ← ih]
      omega
    · simp only [List.filter_cons, h, Bool.not_eq_true'] at *
      simp [h, ← ih]
      omega

theorem countTotalTrees_eq (g : GridState) :
    countTotalTrees g = ((allTrees g).filter (fun t => !t.cut)).length := by
  unfold countTotalTrees allTrees
  induction g.grid with
  | nil => simp
  | cons t rest ih => simp [List.flatMap_cons, List.filter_append, ih]

/-- C8: in every state reachable from `initialize_grid` via `cut_tree`:
tree ids are exactly `range(counter)` in creation order — hence pairwise
distinct and strictly increasing — the id counter equals the number of
stored tree records, the `trees_cut` statistic equals the number of trees
whose `cut` flag is set, and water tiles carry no trees. -/
theorem claim_C8_grid_invariants (g : GridState) (h : GridReachable g) :
    (allTrees g).map Tree.id = List.range g.tree_id_counter ∧
    ((allTrees g).map Tree.id).Nodup ∧
    List.Pairwise (· < ·) ((allTrees g).map Tree.id) ∧
    g.tree_id_counter = (allTrees g).length ∧
    (gridStats g).2 = ((allTrees g).filter (fun t => t.cut)).length ∧
    ∀ tile ∈ g.grid, tile.tile_type = .water → tile.trees = [] := by
  have hinv := gridInv_reachable h
  have hlen : g.tree_id_counter = (allTrees g).length := by
    have := congrArg List.length hinv.1
    simpa using this.symm
  refine ⟨hinv.1, ?_, ?_, hlen, ?_, hinv.2⟩
  · rw [hinv.1]
    exact List.nodup_range _
  · rw [hinv.1]
    exact List.pairwise_lt_range _
  · have hsplit := length_filter_not_add (fun t => t.cut) (allTrees g)
    have hcnt := countTotalTrees_eq g
    simp only [gridStats]
    rw [hcnt, hlen]
    omega

/-- C8 witness: the invariants hold for a freshly initialized 2×2 grid with
constant generation choices. -/
theorem claim_C8_witness :
    (allTrees (initializeGrid
        { tileType := fun _ _ => .grass, coin := fun _ _ => 0, pick12 := fun _ _ => 1,
          offx := fun _ => 1/2, offy := fun _ => 1/2, species := fun _ => "oak" } 2)).map
        Tree.id =
      List.range (initializeGrid
        { tileType := fun _ _ => .grass, coin := fun _ _ => 0, pick12 := fun _ _ => 1,
          offx := fun _ => 1/2, offy := fun _ => 1/2, species := fun _ => "oak" }
        2).tree_id_counter ∧
    ((allTrees (initializeGrid
        { tileType := fun _ _ => .grass, coin := fun _ _ => 0, pick12 := fun _ _ => 1,
          offx := fun _ => 1/2, offy := fun _ => 1/2, species := fun _ => "oak" } 2)).map
        Tree.id).Nodup ∧
    List.Pairwise (· < ·) ((allTrees (initializeGrid
        { tileType := fun _ _ => .grass, coin := fun _ _ => 0, pick12 := fun _ _ => 1,
          offx := fun _ => 1/2, offy := fun _ => 1/2, species := fun _ => "oak" } 2)).map
        Tree.id) ∧
    (initializeGrid
        { tileType := fun _ _ => .grass, coin := fun _ _ => 0, pick12 := fun _ _ => 1,
          offx := fun _ => 1/2, offy := fun _ => 1/2, species := fun _ => "oak" }
        2).tree_id_counter =
      (allTrees (initializeGrid
        { tileType := fun _ _ => .grass, coin := fun _ _ => 0, pick12 := fun _ _ => 1,
          offx := fun _ => 1/2, offy := fun _ => 1/2, species := fun _ => "oak" } 2)).length ∧
    (gridStats (initializeGrid
        { tileType := fun _ _ => .grass, coin := fun _ _ => 0, pick12 := fun _ _ => 1,
          offx := fun _ => 1/2, offy := fun _ => 1/2, species := fun _ => "oak" } 2)).2 =
      ((allTrees (initializeGrid
        { tileType := fun _ _ => .grass, coin := fun _ _ => 0, pick12 := fun _ _ => 1,
          offx := fun _ => 1/2, offy := fun _ => 1/2, species := fun _ => "oak" } 2)).filter
        (fun t => t.cut)).length ∧
    ∀ tile ∈ (initializeGrid
        { tileType := fun _ _ => .grass, coin := fun _ _ => 0, pick12 := fun _ _ => 1,
          offx := fun _ => 1/2, offy := fun _ => 1/2, species := fun _ => "oak" } 2).grid,
      tile.tile_type = .water → tile.trees = [] :=
  claim_C8_grid_invariants _ (GridReachable.init _ 2)

/-! ### Promotion monotonicity machinery (claim C7) -/

theorem checkPromotion_tier_le (j : String) (t e : ℕ) (r : Res) :
    t ≤ (checkPromotion j t e r).2 := by
  unfold checkPromotion
  split_ifs with h1 h2 h3 h4 h5 h6 <;> simp_all

theorem fallbackStep_name (r : Res) (w : Villager) :
    (fallbackStep r w).1.name = w.name := by
  simp only [fallbackStep]
  split_ifs <;> rfl

theorem fallbackStep_tier_ge (r : Res) (w : Villager) :
    w.job_tier ≤ (fallbackStep r w).1.job_tier := by
  simp only [fallbackStep]
  split_ifs <;>
    first
      | exact le_refl _
      | exact checkPromotion_tier_le w.job w.job_tier w.experience r

theorem applyAssignmentToVillager_name (a : Assignment) (w : Villager) :
    (applyAssignmentToVillager a w).name = w.name := by
  unfold applyAssignmentToVillager
  split_ifs <;> rfl

theorem applyAssignmentToVillager_tier_ge (a : Assignment) (w : Villager)
    (h : w.job_tier ≤ a.job_tier) :
    w.job_tier ≤ (applyAssignmentToVillager a w).job_tier := by
  unfold applyAssignmentToVillager
  split_ifs <;> simpa

theorem applyAssignment_cons_eq (a : Assignment) (w : Villager) (vs : List Villager)
    (h : w.name = a.name) :
    applyAssignment (w :: vs) a = applyAssignmentToVillager a w :: vs := by
  unfold applyAssignment
  rw [updateFirst, if_pos (by simp [h])]

theorem applyAssignment_cons_ne (a : Assignment) (w : Villager) (vs : List Villager)
    (h : w.name ≠ a.name) :
    applyAssignment (w :: vs) a = w :: applyAssignment vs a := by
  unfold applyAssignment
  rw [updateFirst, if_neg (by simp [h])]

theorem foldl_applyAssignment_cons_ne (as : List Assignment) (w : Villager)
    (vs : List Villager) (h : ∀ a ∈ as, w.name ≠ a.name) :
    as.foldl applyAssignment (w :: vs) = w :: as.foldl applyAssignment vs := by
  induction as generalizing vs with
  | nil => rfl
  | cons a rest ih =>
    simp only [List.foldl_cons]
    rw [applyAssignment_cons_ne a w vs (h a (List.mem_cons_self a rest))]
    exact ih _ (fun a' ha' => h a' (List.mem_cons_of_mem _ ha'))

theorem fallbackAux_fst (r : Res) (w : Villager) (ws : List Villager) :
    (fallbackAux r (w :: ws)).1 = (fallbackStep r w).1 :: (fallbackAux r ws).1 := by
  have hdef : fallbackAux r (w :: ws) =
      match fallbackStep r w, fallbackAux r ws with
      | (a, some b), (as, bs) => (a :: as, b :: bs)
      | (a, none), (as, bs) => (a :: as, bs) := rfl
  rcases h1 : fallbackStep r w with ⟨a, _ | b⟩ <;>
    rcases h2 : fallbackAux r ws with ⟨as, bs⟩ <;>
      rw [hdef, h1, h2]

theorem fallbackAux_names (r : Res) :
    ∀ vs : List Villager, ((fallbackAux r vs).1).map Assignment.name = vs.map Villager.name
  | [] => rfl
  | w :: ws => by
    rw [fallbackAux_fst]
    simp only [List.map_cons, fallbackStep_name, fallbackAux_names r ws]

/-- The assignment loop of one DirectiveEngine round acts pointwise when the
villager names are distinct: villager `i` is updated by exactly its own
assignment, computed from the pre-round snapshot. -/
theorem foldl_fallback_assignments (r : Res) :
    ∀ vs : List Villager, (vs.map Villager.name).Nodup →
      ((fallbackAux r vs).1).foldl applyAssignment vs =
        vs.map (fun w => applyAssignmentToVillager (fallbackStep r w).1 w)
  | [], _ => rfl
  | w :: ws, hnd => by
    rw [fallbackAux_fst]
    simp only [List.foldl_cons, List.map_cons]
    rw [applyAssignment_cons_eq _ _ _ (fallbackStep_name r w).symm]
    rw [foldl_applyAssignment_cons_ne]
    · rw [foldl_fallback_assignments r ws (List.nodup_cons.mp (by simpa using hnd)).2]
    · intro a' ha'
      rw [applyAssignmentToVillager_name]
      have hmem : a'.name ∈ ws.map Villager.name := by
        rw [← fallbackAux_names r ws]
        exact List.mem_map_of_mem Assignment.name ha'
      have hw : w.name ∉ ws.map Villager.name :=
        (List.nodup_cons.mp (by simpa using hnd)).1
      exact fun he => hw (he ▸ hmem)

theorem updateFirst_core (p : Villager → Bool) (f : Villager → Villager)
    (hf : ∀ w, coreOf (f w) = coreOf w) :
    ∀ vs : List Villager, (updateFirst p f vs).map coreOf = vs.map coreOf
  | [] => rfl
  | w :: ws => by
    unfold updateFirst
    split_ifs with h
    · simp [hf w]
    · simp [updateFirst_core p f hf ws]

theorem applyBuildAction_core (vs : List Villager) (b : BuildAction) :
    (applyBuildAction vs b).map coreOf = vs.map coreOf := by
  unfold applyBuildAction
  exact updateFirst_core (fun w => decide (w.name = b.assigned_to))
    (fun w => { w with assigned_task := some ("build_" ++ b.building) })
    (fun w => rfl) vs

theorem foldl_applyBuildAction_core (bs : List BuildAction) :
    ∀ vs : List Villager, (bs.foldl applyBuildAction vs).map coreOf = vs.map coreOf := by
  induction bs with
  | nil => intro vs; rfl
  | cons b rest ih =>
    intro vs
    simp only [List.foldl_cons]
    rw [ih (applyBuildAction vs b), applyBuildAction_core]

theorem fallbackLogic_eq (s : VillageState) :
    (fallbackLogic s).assignments = (fallbackAux s.resources s.villagers).1 ∧
    (fallbackLogic s).build_actions = (fallbackAux s.resources s.villagers).2 := by
  unfold fallbackLogic
  rcases h : fallbackAux s.resources s.villagers with ⟨as, bs⟩
  exact ⟨rfl, rfl⟩

/-- One DirectiveEngine round keeps every villager's name, job and tier
pointwise determined by its own pre-round record (distinct names). -/
theorem oracleRound_core (s : VillageState) (hnd : (s.villagers.map Villager.name).Nodup) :
    ((oracleRound s).villagers).map coreOf =
      (s.villagers.map (fun w => applyAssignmentToVillager (fallbackStep s.resources w).1 w)).map
        coreOf := by
  unfold oracleRound applyOracleDecisions
  simp only [(fallbackLogic_eq s).1, (fallbackLogic_eq s).2]
  rw [foldl_applyBuildAction_core, foldl_fallback_assignments s.resources s.villagers hnd]

theorem oracleRound_names (s : VillageState)
    (hnd : (s.villagers.map Villager.name).Nodup) :
    ((oracleRound s).villagers).map Villager.name = s.villagers.map Villager.name := by
  have h := congrArg (List.map (fun c : String × String × ℕ => c.1)) (oracleRound_core s hnd)
  simp only [List.map_map] at h
  have e1 : ((fun c : String × String × ℕ => c.1) ∘ coreOf) = Villager.name := rfl
  rw [e1] at h
  rw [h]
  have e3 : ((fun c : String × String × ℕ => c.1) ∘ coreOf ∘
      fun w => applyAssignmentToVillager (fallbackStep s.resources w).1 w) = Villager.name := by
    funext w
    exact applyAssignmentToVillager_name _ w
  rw [e3]

theorem oracleRound_tier (s : VillageState) (hnd : (s.villagers.map Villager.name).Nodup)
    (i : ℕ) (w w' : Villager) (h1 : s.villagers.get? i = some w)
    (h2 : (oracleRound s).villagers.get? i = some w') : w.job_tier ≤ w'.job_tier := by
  have hcore := congrArg (fun l => l.get? i) (oracleRound_core s hnd)
  simp only [List.get?_map, h1, h2, List.map_map, Option.map_some] at hcore
  have htier := congrArg (fun c : String × String × ℕ => c.2.2) (Option.some.inj hcore)
  simp only [coreOf, Function.comp] at htier
  rw [htier]
  exact applyAssignmentToVillager_tier_ge _ _ (fallbackStep_tier_ge s.resources w)

theorem oracleRound_iter_tier (n : ℕ) :
    ∀ (s : VillageState), (s.villagers.map Villager.name).Nodup →
      ∀ (i : ℕ) (w w' : Villager), s.villagers.get? i = some w →
        ((oracleRound^[n]) s).villagers.get? i = some w' → w.job_tier ≤ w'.job_tier := by
  induction n with
  | zero =>
    intro s _ i w w' h1 h2
    simp only [Function.iterate_zero, id] at h2
    rw [h1] at h2
    injection h2 with h2
    rw [h2]
  | succ n ih =>
    intro s hnd i w w' h1 h2
    rw [Function.iterate_succ_apply] at h2
    have hlen : (oracleRound s).villagers.length = s.villagers.length := by
      have := congrArg List.length (oracleRound_names s hnd)
      simpa using this
    have hi : i < s.villagers.length := by
      by_contra hge
      rw [List.get?_eq_none.mpr (le_of_not_lt hge)] at h1
      exact Option.noConfusion h1
    obtain ⟨w1, hw1⟩ : ∃ w1, (oracleRound s).villagers.get? i = some w1 :=
      ⟨_, List.get?_eq_get (by rw [hlen]; exact hi)⟩
    have hnd2 : ((oracleRound s).villagers.map Villager.name).Nodup := by
      rw [oracleRound_names s hnd]
      exact hnd
    exact (oracleRound_tier s hnd i w w1 h1 hw1).trans
      (ih (oracleRound s) hnd2 i w1 w' hw1 h2)

theorem fallbackStep_rest (r : Res) (w : Villager) (h : w.stamina < 0.2) :
    fallbackStep r w =
      ({ name := w.name, new_job := w.job, job_tier := w.job_tier, task := "rest" }, none) := by
  unfold fallbackStep
  rw [if_pos h]

theorem fallbackStep_rest_apply (r : Res) (w : Villager) (h : w.stamina < 0.2) :
    applyAssignmentToVillager (fallbackStep r w).1 w = { w with assigned_task := some "rest" } := by
  rw [fallbackStep_rest r w h]
  unfold applyAssignmentToVillager
  dsimp only
  rw [if_neg (show ¬(w.job ≠ "" ∧ w.job ≠ w.job) from fun hc => hc.2 rfl),
    if_pos (show ("rest" : String) ≠ "" from by decide)]

/-- C7 (amended): with pairwise-distinct villager names, a villager's
`job_tier` never decreases across any number of fallback-decide plus
`apply_oracle_decisions` rounds; the promotion rule itself never lowers the
tier; and stamina below 0.2 forces the task `"rest"` with job and tier
unchanged. (Without the distinct-name hypothesis the property fails; see
the counterexample.) -/
theorem claim_C7_promotion_monotone (s : VillageState)
    (hnd : (s.villagers.map Villager.name).Nodup) :
    (∀ (j : String) (t e : ℕ) (r : Res), t ≤ (checkPromotion j t e r).2) ∧
    (∀ (r : Res) (w : Villager), w.stamina < 0.2 →
      fallbackStep r w =
        ({ name := w.name, new_job := w.job, job_tier := w.job_tier, task := "rest" },
         none) ∧
      applyAssignmentToVillager (fallbackStep r w).1 w =
        { w with assigned_task := some "rest" }) ∧
    (∀ (n i : ℕ) (w w' : Villager), s.villagers.get? i = some w →
      ((oracleRound^[n]) s).villagers.get? i = some w' → w.job_tier ≤ w'.job_tier) :=
  ⟨checkPromotion_tier_le,
   fun r w h => ⟨fallbackStep_rest r w h, fallbackStep_rest_apply r w h⟩,
   fun n i w w' h1 h2 => oracleRound_iter_tier n s hnd i w w' h1 h2⟩

/-- C7 counterexample: with two villagers sharing the name "Amos" — the
first a tier-3 builder, the second a tier-1 woodcutter with experience 80 —
one DirectiveEngine round applies the second Amos's promotion to the first
Amos (first-match lookup), demoting the tier-3 builder to a tier-2
lumberjack: `job_tier` is not monotone for every roster. -/
theorem claim_C7_counterexample :
    (({ resources := { wood := 0, food := 0, stone := 0 },
        villagers := [
          { name := "Amos", job := "builder", job_tier := 3, stamina := 1,
            experience := 0, assigned_task := none },
          { name := "Amos", job := "woodcutter", job_tier := 1, stamina := 1,
            experience := 80, assigned_task := none }],
        buildings := { houses := 0, workshops := 0, farms := 0 },
        day := 1 } : VillageState).villagers.get? 0).map Villager.job_tier = some 3 ∧
    ((oracleRound
        { resources := { wood := 0, food := 0, stone := 0 },
          villagers := [
            { name := "Amos", job := "builder", job_tier := 3, stamina := 1,
              experience := 0, assigned_task := none },
            { name := "Amos", job := "woodcutter", job_tier := 1, stamina := 1,
              experience := 80, assigned_task := none }],
          buildings := { houses := 0, workshops := 0, farms := 0 },
          day := 1 }).villagers.get? 0).map Villager.job_tier = some 2 := by
  constructor
  · rfl
  · simp only [oracleRound, fallbackLogic, fallbackAux, fallbackStep, checkPromotion,
      assignTask, taskMap, applyOracleDecisions, applyAssignment, applyAssignmentToVillager,
      updateFirst, applyBuildAction, strStarts, listPre]
    norm_num
    simp [applyAssignment, updateFirst, applyAssignmentToVillager]

/-- C7 witness: the default three-villager roster has distinct names, so
the amended monotonicity theorem applies to it. -/
theorem claim_C7_witness :
    (∀ (j : String) (t e : ℕ) (r : Res), t ≤ (checkPromotion j t e r).2) ∧
    (∀ (r : Res) (w : Villager), w.stamina < 0.2 →
      fallbackStep r w =
        ({ name := w.name, new_job := w.job, job_tier := w.job_tier, task := "rest" },
         none) ∧
      applyAssignmentToVillager (fallbackStep r w).1 w =
        { w with assigned_task := some "rest" }) ∧
    (∀ (n i : ℕ) (w w' : Villager),
      ({ resources := { wood := 50, food := 50, stone := 20 },
         villagers := [
           { name := "Alice", job := "woodcutter", job_tier := 1, stamina := 1,
             experience := 0, assigned_task := none },
           { name := "Bob", job := "forager", job_tier := 1, stamina := 1,
             experience := 0, assigned_task := none },
           { name := "Charlie", job := "miner", job_tier := 1, stamina := 1,
             experience := 0, assigned_task := none }],
         buildings := { houses := 1, workshops := 0, farms := 0 },
         day := 1 } : VillageState).villagers.get? i = some w →
      ((oracleRound^[n])
        { resources := { wood := 50, food := 50, stone := 20 },
          villagers := [
            { name := "Alice", job := "woodcutter", job_tier := 1, stamina := 1,
              experience := 0, assigned_task := none },
            { name := "Bob", job := "forager", job_tier := 1, stamina := 1,
              experience := 0, assigned_task := none },
            { name := "Charlie", job := "miner", job_tier := 1, stamina := 1,
              experience := 0, assigned_task := none }],
          buildings := { houses := 1, workshops := 0, farms := 0 },
          day := 1 }).villagers.get? i = some w' → w.job_tier ≤ w'.job_tier) :=
  claim_C7_promotion_monotone
    { resources := { wood := 50, food := 50, stone := 20 },
      villagers := [
        { name := "Alice", job := "woodcutter", job_tier := 1, stamina := 1,
          experience := 0, assigned_task := none },
        { name := "Bob", job := "forager", job_tier := 1, stamina := 1,
          experience := 0, assigned_task := none },
        { name := "Charlie", job := "miner", job_tier := 1, stamina := 1,
          experience := 0, assigned_task := none }],
      buildings := { houses := 1, workshops := 0, farms := 0 },
      day := 1 }
    (by simp)

end VillageSim


